import Mathlib

/-!
# Verification of the `phi` agent runtime core

A shallow embedding, in Lean 4, of the core of the `phi` agent runtime:
the two OpenAI-family wire adapters (chat-completions and
chatgpt-responses), the SSE consumer, the turn runner, the SDK session
prompt path, and the inbound-queue retry loop.  Each definition is a
direct transcription of the corresponding Go function; Go maps are
modelled as association lists, Go `[]any` content lists as a tagged
variant type, goroutine-free control flow as pure state passing, and
`time.Now().UnixMilli()` as an explicit `now` parameter.
-/

namespace Phi

/-! ## JSON values

Models the values produced by Go's `encoding/json` when unmarshalling
into `any`: JSON objects become `map[string]any` (here: association
lists in which a duplicate key keeps its first position and its last
value, mirroring repeated Go map assignment), arrays become `[]any`,
and numbers keep their lexeme (Go would convert to `float64`; none of
the verified properties depend on numeric value identity). -/
inductive Json where
  | null
  | bool (b : Bool)
  | num (lexeme : String)
  | str (s : String)
  | arr (items : List Json)
  | obj (fields : List (String × Json))
  deriving Repr

/-- Go `strings.Join`. -/
def strJoinSep (sep : String) : List String → String
  | [] => ""
  | x :: rest => rest.foldl (fun acc a => acc ++ sep ++ a) x

/-- Go `unicode.IsSpace` over the characters the runtime ever meets:
the ASCII whitespace set plus NEL and NBSP (the remaining Unicode
space classes are not modelled). -/
def isSpaceChar (c : Char) : Bool :=
  c == ' ' || c == '\t' || c == '\n' || c == (Char.ofNat 0x0B) ||
    c == (Char.ofNat 0x0C) || c == '\r' ||
    c == (Char.ofNat 0x85) || c == (Char.ofNat 0xA0)

/-- Leading and trailing whitespace removal on characters. -/
def trimChars (cs : List Char) : List Char :=
  ((cs.dropWhile isSpaceChar).reverse.dropWhile isSpaceChar).reverse

/-- Go `strings.TrimSpace`. -/
def trimSpace (s : String) : String :=
  String.mk (trimChars s.data)

/-- Go `strings.HasPrefix`. -/
def strHasPfx (pre s : String) : Bool :=
  pre.data.isPrefixOf s.data

/-- Go `s[n:]` on a string known to be at least `n` bytes of ASCII
(used only to strip the `data:` marker). -/
def strDrop (s : String) (n : Nat) : String :=
  String.mk (s.data.drop n)

/-- JSON insignificant whitespace characters. -/
def isJsonWs (c : Char) : Bool :=
  c == ' ' || c == '\t' || c == '\n' || c == '\r'

/-- Drop leading JSON whitespace. -/
def skipWs : List Char → List Char
  | [] => []
  | c :: cs => if isJsonWs c then skipWs cs else c :: cs

/-- Hexadecimal digit value, for `\uXXXX` escapes. -/
def hexVal (c : Char) : Option Nat :=
  if '0' ≤ c ∧ c ≤ '9' then some (c.toNat - '0'.toNat)
  else if 'a' ≤ c ∧ c ≤ 'f' then some (c.toNat - 'a'.toNat + 10)
  else if 'A' ≤ c ∧ c ≤ 'F' then some (c.toNat - 'A'.toNat + 10)
  else none

/-- Body of a JSON string literal (after the opening quote), with the
standard escapes.  `\uXXXX` is modelled as a single code point (Go
additionally combines surrogate pairs; no verified property depends on
that).  The `fuel` argument only bounds recursion depth. -/
def parseStringChars : Nat → List Char → Option (List Char × List Char)
  | 0, _ => none
  | _, [] => none
  | fuel + 1, c :: cs =>
    if c = '"' then some ([], cs)
    else if c = '\\' then
      match cs with
      | [] => none
      | 'u' :: a :: b :: c2 :: d :: rest =>
        match hexVal a, hexVal b, hexVal c2, hexVal d with
        | some x, some y, some z, some w =>
          (parseStringChars fuel rest).map
            (fun r => (Char.ofNat (((x * 16 + y) * 16 + z) * 16 + w) :: r.1, r.2))
        | _, _, _, _ => none
      | e :: cs' =>
        let decoded : Option Char :=
          if e = '"' then some '"'
          else if e = '\\' then some '\\'
          else if e = '/' then some '/'
          else if e = 'b' then some (Char.ofNat 8)
          else if e = 'f' then some (Char.ofNat 12)
          else if e = 'n' then some '\n'
          else if e = 'r' then some '\r'
          else if e = 't' then some '\t'
          else none
        match decoded with
        | some ch => (parseStringChars fuel cs').map (fun r => (ch :: r.1, r.2))
        | none => none
    else if c.toNat < 0x20 then none
    else (parseStringChars fuel cs).map (fun r => (c :: r.1, r.2))

/-- Longest prefix of decimal digits. -/
def spanDigits (cs : List Char) : List Char × List Char :=
  cs.span (fun c => c.isDigit)

/-- A JSON number lexeme: `-? (0 | [1-9][0-9]*) (. [0-9]+)? ([eE][+-]?[0-9]+)?`. -/
def parseNumber (cs : List Char) : Option (String × List Char) :=
  let (negPart, cs1) :=
    match cs with
    | '-' :: rest => (['-'], rest)
    | _ => (([] : List Char), cs)
  let intPart : Option (List Char × List Char) :=
    match cs1 with
    | '0' :: rest => some (['0'], rest)
    | c :: rest =>
      if c.isDigit then
        let (ds, rest') := spanDigits rest
        some (c :: ds, rest')
      else none
    | [] => none
  match intPart with
  | none => none
  | some (intDigits, cs2) =>
    let fracPart : Option (List Char × List Char) :=
      match cs2 with
      | '.' :: rest =>
        let (ds, rest') := spanDigits rest
        if ds = [] then none else some ('.' :: ds, rest')
      | _ => some ([], cs2)
    match fracPart with
    | none => none
    | some (fracDigits, cs3) =>
      let expPart : Option (List Char × List Char) :=
        match cs3 with
        | c :: rest =>
          if c = 'e' ∨ c = 'E' then
            let (sign, rest1) :=
              match rest with
              | s :: rest' => if s = '+' ∨ s = '-' then ([s], rest') else (([] : List Char), rest)
              | [] => ([], rest)
            let (ds, rest2) := spanDigits rest1
            if ds = [] then none else some (c :: (sign ++ ds), rest2)
          else some ([], cs3)
        | [] => some ([], cs3)
      match expPart with
      | none => none
      | some (expDigits, cs4) =>
        some (String.mk (negPart ++ intDigits ++ fracDigits ++ expDigits), cs4)

/-- Repeated Go map assignment `m[k] = v`: a duplicate key keeps its
first position and takes the last value. -/
def objInsert (k : String) (v : Json) : List (String × Json) → List (String × Json)
  | [] => [(k, v)]
  | (k', v') :: rest => if k' = k then (k', v) :: rest else (k', v') :: objInsert k v rest

mutual

/-- One JSON value (recursive descent; `fuel` bounds nesting depth and
is chosen generously by `jsonDecode`). -/
def parseVal : Nat → List Char → Option (Json × List Char)
  | 0, _ => none
  | fuel + 1, cs =>
    match skipWs cs with
    | 'n' :: 'u' :: 'l' :: 'l' :: r => some (.null, r)
    | 't' :: 'r' :: 'u' :: 'e' :: r => some (.bool true, r)
    | 'f' :: 'a' :: 'l' :: 's' :: 'e' :: r => some (.bool false, r)
    | '"' :: r => (parseStringChars fuel r).map (fun p => (.str (String.mk p.1), p.2))
    | '[' :: r =>
      (match skipWs r with
       | ']' :: r' => some (.arr [], r')
       | r' => (parseArrElems fuel r').map (fun p => (.arr p.1, p.2)))
    | '{' :: r =>
      (match skipWs r with
       | '}' :: r' => some (.obj [], r')
       | r' => (parseObjElems fuel r').map
           (fun p => (.obj (p.1.foldl (fun acc kv => objInsert kv.1 kv.2 acc) []), p.2)))
    | cs' => (parseNumber cs').map (fun p => (.num p.1, p.2))

/-- Comma-separated array elements up to the closing bracket. -/
def parseArrElems : Nat → List Char → Option (List Json × List Char)
  | 0, _ => none
  | fuel + 1, cs =>
    match parseVal fuel cs with
    | none => none
    | some (v, r) =>
      match skipWs r with
      | ',' :: r' => (parseArrElems fuel (skipWs r')).map (fun p => (v :: p.1, p.2))
      | ']' :: r' => some ([v], r')
      | _ => none

/-- Comma-separated `"key": value` members up to the closing brace. -/
def parseObjElems : Nat → List Char → Option (List (String × Json) × List Char)
  | 0, _ => none
  | fuel + 1, cs =>
    match skipWs cs with
    | '"' :: r =>
      match parseStringChars fuel r with
      | none => none
      | some (keyChars, r1) =>
        match skipWs r1 with
        | ':' :: r2 =>
          match parseVal fuel r2 with
          | none => none
          | some (v, r3) =>
            match skipWs r3 with
            | ',' :: r4 => (parseObjElems fuel r4).map
                (fun p => ((String.mk keyChars, v) :: p.1, p.2))
            | '}' :: r4 => some ([(String.mk keyChars, v)], r4)
            | _ => none
        | _ => none
    | _ => none

end

/-- Models `json.Unmarshal(data, &v)` for `v : any`: one JSON value,
optionally surrounded by whitespace, nothing else.  `none` is a decode
error. -/
def jsonDecode (s : String) : Option Json :=
  match parseVal (4 * s.length + 8) s.data with
  | some (v, rest) => if skipWs rest = [] then some v else none
  | none => none

/-- Models `json.Unmarshal(data, &m)` for `m : map[string]any`: a JSON
object yields its members; the JSON literal `null` succeeds and leaves
the map `nil` (Go's documented null handling); anything else is an
error. -/
def goUnmarshalMap (s : String) : Option (List (String × Json)) :=
  match jsonDecode s with
  | some (.obj kvs) => some kvs
  | some .null => some []
  | _ => none

/-- Models `json.Marshal` for the values of `Json` (Go marshals
`map[string]any` with keys in sorted order).  String escaping is
modelled for quotes, backslashes and ASCII control characters; Go's
additional HTML-safe escaping of `<`, `>`, `&` is not modelled (no
verified property feeds those characters through `Marshal`).  A number
is emitted as its stored lexeme. -/
def jsonEncodeChar (c : Char) : String :=
  if c = '"' then "\\\""
  else if c = '\\' then "\\\\"
  else if c = '\n' then "\\n"
  else if c = '\r' then "\\r"
  else if c = '\t' then "\\t"
  else if c.toNat < 0x20 then "\\u00" ++ String.mk [Nat.digitChar (c.toNat / 16), Nat.digitChar (c.toNat % 16)]
  else String.mk [c]

/-- JSON string literal for `s`, per `jsonEncodeChar`. -/
def jsonEncodeString (s : String) : String :=
  "\"" ++ String.join (s.data.map jsonEncodeChar) ++ "\""

mutual

/-- `json.Marshal`, see `jsonEncodeChar`.  Object members are emitted
in sorted key order, as Go does for maps. -/
def jsonEncode : Json → String
  | .null => "null"
  | .bool b => if b then "true" else "false"
  | .num lexeme => lexeme
  | .str s => jsonEncodeString s
  | .arr items => "[" ++ strJoinSep "," (jsonEncodeItems items) ++ "]"
  | .obj fields =>
    let sorted := (jsonEncodeFields fields).mergeSort (fun a b => decide (a.1 ≤ b.1))
    "\x7b" ++ strJoinSep ","
        (sorted.map (fun kv => jsonEncodeString kv.1 ++ ":" ++ kv.2)) ++ "\x7d"

/-- Array elements, each encoded. -/
def jsonEncodeItems : List Json → List String
  | [] => []
  | j :: js => jsonEncode j :: jsonEncodeItems js

/-- Object members as `(key, encoded value)` pairs, in stored order
(sorted afterwards by `jsonEncode`). -/
def jsonEncodeFields : List (String × Json) → List (String × String)
  | [] => []
  | (k, v) :: rest => (k, jsonEncode v) :: jsonEncodeFields rest

end

/-! ## The `ai/model` data types

Transcribed from `ai/model/types.go`.  Go declares `Role` and
`ContentType` as string types with named constants; they are modelled
as `String` with the same constant values.  The `Type ContentType` tag
field carried by each content struct is fixed at construction
throughout the core, so the Lean constructor plays its role.  The
`float64` field `Usage.Cost` is omitted (floating point; no verified
property mentions it). -/

def roleUser : String := "user"

def roleAssistant : String := "assistant"

def roleToolResult : String := "toolResult"

def contentTextTag : String := "text"

def contentToolCallTag : String := "toolCall"

def contentImageTag : String := "image"

def contentThinkingTag : String := "thinking"

/-- `model.Usage` without the `Cost` field. -/
structure Usage where
  input : Int := 0
  output : Int := 0
  total : Int := 0
  deriving DecidableEq, Repr

/-- `model.StopReason` (string constants `stop`, `length`, `toolUse`,
`error`, `aborted`). -/
inductive StopReason where
  | stop
  | length
  | toolUse
  | error
  | aborted
  deriving DecidableEq, Repr

/-- `model.Model`. -/
structure Model where
  provider : String := ""
  id : String := ""
  name : String := ""
  contextWindow : Int := 0
  maxTokens : Int := 0
  reasoning : Bool := false
  deriving DecidableEq, Repr

/-- `model.TextContent` (minus the fixed tag). -/
structure TextContent where
  text : String
  deriving DecidableEq, Repr

/-- `model.ImageContent` (minus the fixed tag). -/
structure ImageContent where
  mimeType : String := ""
  data : String := ""
  deriving DecidableEq, Repr

/-- `model.ToolCallContent` (minus the fixed tag); `Arguments` is a Go
`map[string]any`, modelled as an association list of `Json`. -/
structure ToolCallContent where
  id : String := ""
  name : String := ""
  arguments : List (String × Json) := []
  deriving Repr

/-- `model.ThinkingContent` (minus the fixed tag). -/
structure ThinkingContent where
  thinking : String := ""
  deriving DecidableEq, Repr

/-- One element of a Go `[]any` content list: either one of the typed
content structs or an untyped `map[string]any` (as loaded from
persisted JSON).  `other` stands for any further dynamic type, which
every type switch in the core ignores. -/
inductive RawPart where
  | text (t : TextContent)
  | image (i : ImageContent)
  | toolCall (c : ToolCallContent)
  | thinking (t : ThinkingContent)
  | map (m : List (String × Json))
  | other
  deriving Repr

/-- `model.Message`. -/
structure Message where
  role : String
  contentRaw : List RawPart := []
  toolCallID : String := ""
  toolName : String := ""
  timestamp : Int := 0
  deriving Repr

/-- `model.AssistantMessage`. -/
structure AssistantMessage where
  role : String := "assistant"
  contentRaw : List RawPart := []
  provider : String := ""
  model : String := ""
  stopReason : StopReason := .stop
  errorMessage : String := ""
  usage : Usage := {}
  timestamp : Int := 0
  deriving Repr

/-- `model.Tool`. -/
structure ModelTool where
  name : String := ""
  description : String := ""
  parameters : List (String × Json) := []
  deriving Repr

/-- `model.Context`. -/
structure Context where
  systemPrompt : String := ""
  messages : List Message := []
  tools : List ModelTool := []
  deriving Repr

/-! ### Go map lookups with type assertions -/

/-- Go `m[k]` on a `map[string]any`. -/
def mapGet (m : List (String × Json)) (k : String) : Option Json :=
  (m.find? (fun kv => kv.1 == k)).map (·.2)

/-- Go `s, _ := m[k].(string)`: the zero string on a missing key or a
non-string value. -/
def getStringField (m : List (String × Json)) (k : String) : String :=
  match mapGet m k with
  | some (.str s) => s
  | _ => ""

/-- Go `s, ok := m[k].(string)` with `ok` checked. -/
def getStringFieldOk (m : List (String × Json)) (k : String) : Option String :=
  match mapGet m k with
  | some (.str s) => some s
  | _ => none

/-- Go `o, ok := m[k].(map[string]any)` with `ok` checked. -/
def getObjField (m : List (String × Json)) (k : String) : Option (List (String × Json)) :=
  match mapGet m k with
  | some (.obj kvs) => some kvs
  | _ => none

/-! ## `parseToolArguments` (`ai/provider/openai.go`) -/

/-- `parseToolArguments`: trim; empty becomes the empty map; a JSON
object (or, via Go's null-into-map unmarshalling, the literal `null`)
is used directly; any other valid JSON value `v` becomes
`{"value": v}`; malformed JSON becomes `{"_raw": trimmed}`. -/
def parseToolArguments (raw : String) : List (String × Json) :=
  let trimmed := trimSpace raw
  if trimmed = "" then []
  else
    match goUnmarshalMap trimmed with
    | some out => out
    | none =>
      match jsonDecode trimmed with
      | some anyValue => [("value", anyValue)]
      | none => [("_raw", .str trimmed)]

namespace Provider

/-! ## Chat-completions request shaping (`ai/provider/openai.go`)

`toOpenAIMessages` and its helpers, transcribed from the `provider`
package.  The `any`-typed `Content` field of `openAIChatMessage`
(absent / plain string / structured part list) is modelled by
`OAIChatContentVal`. -/

/-- One structured content part sent to the chat-completions API
(`{"type":"text",...}` or `{"type":"image_url",...}`). -/
inductive OAIContentPart where
  | text (text : String)
  | imageURL (url : String)
  deriving DecidableEq, Repr

/-- The `Content any` field of `openAIChatMessage`: `omitted` is Go
`nil`. -/
inductive OAIChatContentVal where
  | omitted
  | plain (s : String)
  | parts (ps : List OAIContentPart)
  deriving DecidableEq, Repr

/-- The nested `Function` struct of `openAIChatToolCall`. -/
structure OpenAIChatToolCallFunction where
  name : String := ""
  arguments : String := ""
  deriving DecidableEq, Repr

/-- `openAIChatToolCall` (its `Type` field is always `"function"`). -/
structure OpenAIChatToolCall where
  id : String := ""
  function : OpenAIChatToolCallFunction := {}
  deriving DecidableEq, Repr

/-- `openAIChatMessage`. -/
structure OpenAIChatMessage where
  role : String := ""
  content : OAIChatContentVal := .omitted
  toolCalls : List OpenAIChatToolCall := []
  toolCallID : String := ""
  name : String := ""
  deriving DecidableEq, Repr

/-- The per-item body of the `extractText` loop. -/
def extractTextStep (acc : List String) (item : RawPart) : List String :=
  match item with
  | .text v => if trimSpace v.text ≠ "" then acc ++ [v.text] else acc
  | .map v =>
    if getStringField v "type" = contentTextTag then
      let text := getStringField v "text"
      if trimSpace text ≠ "" then acc ++ [text] else acc
    else acc
  | _ => acc

/-- `extractText`: newline-join of the non-blank text parts (typed or
map-shaped). -/
def extractText (content : List RawPart) : String :=
  strJoinSep "\n" (content.foldl extractTextStep [])

/-- The per-item body of the provider-side `extractToolCalls` loop:
`some` iff the item is a tool call (typed, or a map tagged
`toolCall`), with the index-based defaults applied (`i` is the item's
position in the whole content list, as in the Go `range` loop).

Note `json.Marshal` of a `nil` `map[string]any` yields `"null"` in Go
while the model's association list cannot distinguish `nil` from empty
(both encode to `"{}"` — then left alone because non-empty); no
verified property depends on this corner. -/
def extractToolCallsOne (i : Nat) (item : RawPart) : Option OpenAIChatToolCall :=
  match item with
  | .toolCall v =>
    let id := trimSpace v.id
    let name := trimSpace v.name
    let args := jsonEncode (.obj v.arguments)
    some
      { id := if id = "" then "call_" ++ toString (i + 1) else id
        function :=
          { name := if name = "" then "tool" else name
            arguments := if args = "" then "\x7b\x7d" else args } }
  | .map v =>
    if getStringField v "type" = contentToolCallTag then
      let id := getStringField v "id"
      let name := getStringField v "name"
      let args :=
        match mapGet v "arguments" with
        | some rawArgs => jsonEncode rawArgs
        | none => ""
      some
        { id := if id = "" then "call_" ++ toString (i + 1) else id
          function :=
            { name := if name = "" then "tool" else name
              arguments := if args = "" then "\x7b\x7d" else args } }
    else none
  | _ => none

/-- The accumulator step of the provider-side `extractToolCalls`
loop. -/
def extractToolCallsStep (out : List OpenAIChatToolCall) (p : Nat × RawPart) :
    List OpenAIChatToolCall :=
  match extractToolCallsOne p.1 p.2 with
  | some call => out ++ [call]
  | none => out

/-- Provider-side `extractToolCalls` (distinct from the runner's
function of the same name). -/
def extractToolCalls (content : List RawPart) : List OpenAIChatToolCall :=
  content.enum.foldl extractToolCallsStep []

/-- Result of `extractOpenAIUserContent`: Go returns `nil`, a plain
string, or a part list. -/
inductive OpenAIUserContent where
  | plain (s : String)
  | parts (ps : List OAIContentPart)
  deriving DecidableEq, Repr

/-- The loop state of `extractOpenAIUserContent`. -/
structure UserContentAcc where
  hasImage : Bool := false
  parts : List OAIContentPart := []
  textParts : List String := []
  deriving DecidableEq, Repr

/-- One iteration of the `extractOpenAIUserContent` loop. -/
def userContentStep (acc : UserContentAcc) (item : RawPart) : UserContentAcc :=
  match item with
  | .text v =>
    if trimSpace v.text ≠ "" then
      { acc with
        textParts := acc.textParts ++ [v.text]
        parts := acc.parts ++ [.text v.text] }
    else acc
  | .image v =>
    if trimSpace v.data ≠ "" then
      { acc with
        hasImage := true
        parts := acc.parts ++ [.imageURL ("data:" ++ v.mimeType ++ ";base64," ++ v.data)] }
    else acc
  | .map v =>
    if getStringField v "type" = contentTextTag then
      let text := getStringField v "text"
      if trimSpace text ≠ "" then
        { acc with
          textParts := acc.textParts ++ [text]
          parts := acc.parts ++ [.text text] }
      else acc
    else if getStringField v "type" = contentImageTag then
      let mime := getStringField v "mimeType"
      let data := getStringField v "data"
      if trimSpace data ≠ "" then
        { acc with
          hasImage := true
          parts := acc.parts ++ [.imageURL ("data:" ++ mime ++ ";base64," ++ data)] }
      else acc
    else acc
  | _ => acc

/-- `extractOpenAIUserContent`: `none` is Go's `nil` return (no
usable part); otherwise a concatenated string (no image) or the
structured part list (image present). -/
def extractOpenAIUserContent (content : List RawPart) : Option OpenAIUserContent :=
  let acc := content.foldl userContentStep {}
  if acc.parts = [] then none
  else if !acc.hasImage then some (.plain (strJoinSep "\n" acc.textParts))
  else some (.parts acc.parts)

/-- The per-message body of the `toOpenAIMessages` loop: `none` when
the message contributes no outgoing entry. -/
def toOpenAIMessageOne (msg : Message) : Option OpenAIChatMessage :=
  if msg.role = roleUser then
    match extractOpenAIUserContent msg.contentRaw with
    | none => none
    | some (.plain s) => some { role := "user", content := .plain s }
    | some (.parts ps) => some { role := "user", content := .parts ps }
  else if msg.role = roleAssistant then
    let text := extractText msg.contentRaw
    let toolCalls := extractToolCalls msg.contentRaw
    if text = "" ∧ toolCalls = [] then none
    else
      some
        { role := "assistant"
          content := if text ≠ "" then .plain text else .omitted
          toolCalls := toolCalls }
  else if msg.role = roleToolResult then
    if trimSpace msg.toolCallID = "" then none
    else
      let text := extractText msg.contentRaw
      some
        { role := "tool"
          toolCallID := msg.toolCallID
          name := msg.toolName
          content := .plain (if text = "" then "(no content)" else text) }
  else none

/-- The accumulator step of the `toOpenAIMessages` loop. -/
def toOpenAIMessagesStep (out : List OpenAIChatMessage) (msg : Message) :
    List OpenAIChatMessage :=
  match toOpenAIMessageOne msg with
  | some entry => out ++ [entry]
  | none => out

/-- `toOpenAIMessages`: optional synthetic system entry, then one
entry per mapped session message. -/
def toOpenAIMessages (conversation : Context) : List OpenAIChatMessage :=
  let base : List OpenAIChatMessage :=
    if trimSpace conversation.systemPrompt ≠ "" then
      [{ role := "system", content := .plain conversation.systemPrompt }]
    else []
  conversation.messages.foldl toOpenAIMessagesStep base

end Provider

/-! ## Normalized stream events (`ai/stream/events.go`) -/

/-- `stream.EventType`. -/
inductive StreamEventType where
  | start
  | textDelta
  | thinkingDelta
  | toolCall
  | done
  | error
  deriving DecidableEq, Repr

/-- `stream.Event`.  `Reason` is a Go string whose zero value is
empty; `none` models the unset reason.  The `Partial` pointer field is
never set by the two adapters and is omitted. -/
structure StreamEvent where
  type : StreamEventType
  delta : String := ""
  toolName : String := ""
  toolCallID : String := ""
  arguments : List (String × Json) := []
  reason : Option StopReason := none
  error : String := ""
  deriving Repr

namespace Provider

/-! ## SSE consumption (`consumeSSE`)

`consumeSSE` reads lines, groups `data:` payloads, and hands each
flushed frame to the `onData` callback.  The Go callback closes over
mutable aggregation state and returns an error to stop the scan; here
the state `σ` is threaded explicitly and the callback returns
`σ × Option E`.  The byte stream is modelled as the list of scanned
lines (transport read errors are outside the model). -/

/-- `consumeSSE`, with the pending `data:` buffer explicit. -/
def consumeSSEAux {σ E : Type} (onData : σ → String → σ × Option E) :
    List String → List String → σ → σ × Option E
  | [], dataLines, st =>
    if dataLines = [] then (st, none)
    else onData st (strJoinSep "\n" dataLines)
  | line :: rest, dataLines, st =>
    let trimmed := trimSpace line
    if trimmed = "" then
      if dataLines = [] then consumeSSEAux onData rest [] st
      else
        match onData st (strJoinSep "\n" dataLines) with
        | (st', none) => consumeSSEAux onData rest [] st'
        | (st', some e) => (st', some e)
    else if strHasPfx ":" trimmed then consumeSSEAux onData rest dataLines st
    else if strHasPfx "data:" trimmed then
      consumeSSEAux onData rest (dataLines ++ [trimSpace (strDrop trimmed 5)]) st
    else consumeSSEAux onData rest dataLines st

/-- `consumeSSE` entry point: empty buffer. -/
def consumeSSE {σ E : Type} (onData : σ → String → σ × Option E)
    (lines : List String) (init : σ) : σ × Option E :=
  consumeSSEAux onData lines [] init

/-- Specification-level framing: the payloads `consumeSSE` would
deliver, independent of any handler. -/
def sseFramesAux : List String → List String → List String
  | [], dataLines =>
    if dataLines = [] then [] else [strJoinSep "\n" dataLines]
  | line :: rest, dataLines =>
    let trimmed := trimSpace line
    if trimmed = "" then
      if dataLines = [] then sseFramesAux rest []
      else strJoinSep "\n" dataLines :: sseFramesAux rest []
    else if strHasPfx ":" trimmed then sseFramesAux rest dataLines
    else if strHasPfx "data:" trimmed then
      sseFramesAux rest (dataLines ++ [trimSpace (strDrop trimmed 5)])
    else sseFramesAux rest dataLines

/-- Frames of a line list (empty initial buffer). -/
def sseFrames (lines : List String) : List String :=
  sseFramesAux lines []

/-- Feeding a payload list to a stateful handler with early exit on
error — the payload-level view of `consumeSSE`. -/
def runPayloads {σ E : Type} (onData : σ → String → σ × Option E) :
    List String → σ → σ × Option E
  | [], st => (st, none)
  | p :: ps, st =>
    match onData st p with
    | (st', none) => runPayloads onData ps st'
    | (st', some e) => (st', some e)

/-! ## Chat-completions stream chunks and their decoding -/

/-- The anonymous `Function` struct inside the raw tool-call delta. -/
structure OpenAIToolCallFunctionRaw where
  name : String := ""
  arguments : String := ""
  deriving DecidableEq, Repr

/-- `openAIStreamToolCallRaw`. -/
structure OpenAIStreamToolCallRaw where
  index : Int := 0
  id : String := ""
  type : String := ""
  function : OpenAIToolCallFunctionRaw := {}
  deriving DecidableEq, Repr

/-- The `Delta` struct of a streamed choice. -/
structure OpenAIChunkDelta where
  content : String := ""
  toolCalls : List OpenAIStreamToolCallRaw := []
  deriving DecidableEq, Repr

/-- One streamed choice. -/
structure OpenAIChunkChoice where
  delta : OpenAIChunkDelta := {}
  finishReason : Option String := none
  deriving DecidableEq, Repr

/-- The trailing usage block. -/
structure OpenAIUsageRaw where
  promptTokens : Int := 0
  completionTokens : Int := 0
  totalTokens : Int := 0
  deriving DecidableEq, Repr

/-- `openAIChatStreamChunk`. -/
structure OpenAIChatStreamChunk where
  model : String := ""
  choices : List OpenAIChunkChoice := []
  usage : Option OpenAIUsageRaw := none
  deriving DecidableEq, Repr

/-- Integer value of an all-digit lexeme. -/
def digitsVal (ds : List Char) : Int :=
  Int.ofNat (ds.foldl (fun a c => a * 10 + (c.toNat - '0'.toNat)) 0)

/-- `encoding/json` decoding of a JSON number literal into a Go `int`:
only plain (optionally negative) integer literals succeed. -/
def lexemeToInt (s : String) : Option Int :=
  match s.data with
  | '-' :: ds => if ds ≠ [] ∧ ds.all Char.isDigit then some (-(digitsVal ds)) else none
  | ds => if ds ≠ [] ∧ ds.all Char.isDigit then some (digitsVal ds) else none

/-- `encoding/json` handling of a struct string field: absent or JSON
null leaves the zero value; a string sets it; anything else is a
decode error. -/
def decStringField (m : List (String × Json)) (k : String) : Option String :=
  match mapGet m k with
  | none => some ""
  | some .null => some ""
  | some (.str s) => some s
  | _ => none

/-- As `decStringField`, for an `int` field. -/
def decIntField (m : List (String × Json)) (k : String) : Option Int :=
  match mapGet m k with
  | none => some 0
  | some .null => some 0
  | some (.num lexeme) => lexemeToInt lexeme
  | _ => none

/-- As `decStringField`, for a `*string` field (`none` value for
absent or null). -/
def decOptStringField (m : List (String × Json)) (k : String) :
    Option (Option String) :=
  match mapGet m k with
  | none => some none
  | some .null => some none
  | some (.str s) => some (some s)
  | _ => none

/-- `json.Unmarshal` of one raw tool-call delta object. -/
def decodeToolCallRaw (j : Json) : Option OpenAIStreamToolCallRaw :=
  match j with
  | .null => some {}
  | .obj m => do
    let index ← decIntField m "index"
    let id ← decStringField m "id"
    let ty ← decStringField m "type"
    let fn ←
      match mapGet m "function" with
      | none => some ({} : OpenAIToolCallFunctionRaw)
      | some .null => some {}
      | some (.obj fm) => do
        let name ← decStringField fm "name"
        let arguments ← decStringField fm "arguments"
        some { name := name, arguments := arguments }
      | some _ => none
    some { index := index, id := id, type := ty, function := fn }
  | _ => none

/-- `json.Unmarshal` of one streamed choice object. -/
def decodeChunkChoice (j : Json) : Option OpenAIChunkChoice :=
  match j with
  | .null => some {}
  | .obj m => do
    let delta ←
      match mapGet m "delta" with
      | none => some ({} : OpenAIChunkDelta)
      | some .null => some {}
      | some (.obj dm) => do
        let content ← decStringField dm "content"
        let toolCalls ←
          match mapGet dm "tool_calls" with
          | none => some ([] : List OpenAIStreamToolCallRaw)
          | some .null => some []
          | some (.arr items) => items.mapM decodeToolCallRaw
          | some _ => none
        some { content := content, toolCalls := toolCalls }
      | some _ => none
    let finishReason ← decOptStringField m "finish_reason"
    some { delta := delta, finishReason := finishReason }
  | _ => none

/-- `json.Unmarshal([]byte(payload), &chunk)` for
`openAIChatStreamChunk`: `none` is a decode error (the Go caller then
aborts the stream; the partially-filled struct it leaves behind is
never read). -/
def decodeOpenAIChunk (payload : String) : Option OpenAIChatStreamChunk :=
  match jsonDecode payload with
  | some (.obj m) => do
    let model ← decStringField m "model"
    let choices ←
      match mapGet m "choices" with
      | none => some ([] : List OpenAIChunkChoice)
      | some .null => some []
      | some (.arr items) => items.mapM decodeChunkChoice
      | some _ => none
    let usage ←
      match mapGet m "usage" with
      | none => some (none : Option OpenAIUsageRaw)
      | some .null => some none
      | some (.obj um) => do
        let pt ← decIntField um "prompt_tokens"
        let ct ← decIntField um "completion_tokens"
        let tt ← decIntField um "total_tokens"
        some (some { promptTokens := pt, completionTokens := ct, totalTokens := tt })
      | some _ => none
    some { model := model, choices := choices, usage := usage }
  | some .null => some {}
  | _ => none

/-! ## Chat-completions aggregation (`openAIAggregation`) -/

/-- `openAIToolCallState` (`strings.Builder` becomes a `String`). -/
structure OpenAIToolCallState where
  id : String := ""
  name : String := ""
  args : String := ""
  deriving DecidableEq, Repr

/-- `openAIAggregation`.  The Go `map[int]*openAIToolCallState` is an
association list keyed by index; `toolOrder` preserves first-seen
order exactly as in the source. -/
structure OpenAIAggregation where
  requestModel : Model := {}
  responseModel : String := ""
  text : String := ""
  toolCalls : List (Int × OpenAIToolCallState) := []
  toolOrder : List Int := []
  usage : Usage := {}
  stopReason : StopReason := .stop
  deriving DecidableEq, Repr

/-- `newOpenAIAggregation`. -/
def newOpenAIAggregation (m : Model) : OpenAIAggregation :=
  { requestModel := m, stopReason := .stop }

/-- `mapStopReason`. -/
def mapStopReason (reason : String) : StopReason :=
  if reason = "length" then .length
  else if reason = "tool_calls" ∨ reason = "function_call" then .toolUse
  else if reason = "content_filter" then .error
  else .stop

/-- Association-list read of the tool-call map. -/
def aggLookup (m : List (Int × OpenAIToolCallState)) (i : Int) :
    Option OpenAIToolCallState :=
  (m.find? (fun kv => kv.1 == i)).map (·.2)

/-- Association-list write of the tool-call map (the Go code mutates
through a pointer). -/
def aggStore (m : List (Int × OpenAIToolCallState)) (i : Int)
    (v : OpenAIToolCallState) : List (Int × OpenAIToolCallState) :=
  match m with
  | [] => [(i, v)]
  | (k, v') :: rest => if k = i then (k, v) :: rest else (k, v') :: aggStore rest i v

/-- `getToolCall` followed by the delta merge of one
`openAIStreamToolCallRaw` (adopt first non-empty id/name, append
argument fragments). -/
def applyToolCallDelta (a : OpenAIAggregation) (tc : OpenAIStreamToolCallRaw) :
    OpenAIAggregation :=
  let (call, a) :=
    match aggLookup a.toolCalls tc.index with
    | some call => (call, a)
    | none =>
      (({} : OpenAIToolCallState),
        { a with
          toolCalls := aggStore a.toolCalls tc.index {}
          toolOrder := a.toolOrder ++ [tc.index] })
  let call := if tc.id ≠ "" then { call with id := tc.id } else call
  let call := if tc.function.name ≠ "" then { call with name := tc.function.name } else call
  let call :=
    if tc.function.arguments ≠ "" then
      { call with args := call.args ++ tc.function.arguments }
    else call
  { a with toolCalls := aggStore a.toolCalls tc.index call }

/-- One choice of `applyChunk`: text delta (with emitted event),
tool-call deltas, finish reason. -/
def applyChunkChoice (acc : OpenAIAggregation × List StreamEvent)
    (choice : OpenAIChunkChoice) : OpenAIAggregation × List StreamEvent :=
  let (a, events) := acc
  let (a, events) :=
    if choice.delta.content ≠ "" then
      ({ a with text := a.text ++ choice.delta.content },
        events ++ [{ type := .textDelta, delta := choice.delta.content }])
    else (a, events)
  let a := choice.delta.toolCalls.foldl applyToolCallDelta a
  let a :=
    match choice.finishReason with
    | some fr => if fr ≠ "" then { a with stopReason := mapStopReason fr } else a
    | none => a
  (a, events)

/-- `applyChunk`; emitted events are returned alongside the updated
aggregation. -/
def applyChunk (a : OpenAIAggregation) (chunk : OpenAIChatStreamChunk) :
    OpenAIAggregation × List StreamEvent :=
  let a := if chunk.model ≠ "" then { a with responseModel := chunk.model } else a
  let a :=
    match chunk.usage with
    | some u =>
      { a with
        usage := { input := u.promptTokens, output := u.completionTokens, total := u.totalTokens } }
    | none => a
  chunk.choices.foldl applyChunkChoice (a, [])

/-- `finalizeToolCalls`: the accumulated calls in first-seen order,
with trimmed/defaulted id and name and JSON-parsed arguments; the
default id `call_<i+1>` counts positions within `toolOrder`. -/
def finalizeToolCalls (a : OpenAIAggregation) : List ToolCallContent :=
  a.toolOrder.enum.foldl
    (fun out p =>
      match aggLookup a.toolCalls p.2 with
      | none => out
      | some call =>
        let id := trimSpace call.id
        let id := if id = "" then "call_" ++ toString (p.1 + 1) else id
        let name := trimSpace call.name
        let name := if name = "" then "tool" else name
        out ++ [{ id := id, name := name, arguments := parseToolArguments call.args }])
    []

/-- `openAIAggregation.buildAssistant` (`time.Now().UnixMilli()` is
the explicit `now`). -/
def buildAssistant (a : OpenAIAggregation) (calls : List ToolCallContent)
    (now : Int) : AssistantMessage :=
  let content : List RawPart :=
    (if trimSpace a.text ≠ "" then [.text { text := trimSpace a.text }] else []) ++
      calls.map .toolCall
  let modelID := if a.responseModel = "" then a.requestModel.id else a.responseModel
  { role := "assistant"
    contentRaw := content
    provider := "openai"
    model := modelID
    stopReason := a.stopReason
    usage := a.usage
    timestamp := now }

/-! ## Chat-completions stream consumption
(`openAIEventStream.consume`)

The goroutine, its channels and the HTTP body are replaced by a pure
function from the scanned SSE lines to the emitted event list and the
one-shot result.  Context cancellation (`ctx.Done()` polled at the top
of each `onData` call) is modelled by `cancelAfter`: the context is
observed cancelled from the `cancelAfter`-th `onData` invocation on. -/

/-- The error values that can cross the consume loop. -/
inductive ConsumeErr where
  | sseDone
  | ctxCanceled
  | unmarshal
  | respFailed (msg : String)
  deriving DecidableEq, Repr

/-- `err.Error()` for the modelled errors (the text of an
`encoding/json` error varies; the fixed model text is never compared
against anything but the `context canceled` substring probe). -/
def ConsumeErr.text : ConsumeErr → String
  | .sseDone => "sse done"
  | .ctxCanceled => "context canceled"
  | .unmarshal => "invalid character in json payload"
  | .respFailed msg => msg

/-- Go `strings.Contains`. -/
def strContainsSub (s pat : String) : Bool :=
  decide (pat.data <:+: s.data)

/-- The final value delivered through the one-shot result channel. -/
inductive ConsumeResult where
  | ok (msg : AssistantMessage)
  | err (msg : String)
  | panicked
  deriving Repr

/-- State threaded through the chat-completions `onData` closure. -/
structure OpenAIConsumeState where
  agg : OpenAIAggregation := {}
  events : List StreamEvent := []
  calls : Nat := 0
  cancelAfter : Option Nat := none
  deriving Repr

/-- The chat-completions `onData` body: context check, `[DONE]`
sentinel, JSON decode, `applyChunk`. -/
def openAIOnData (st : OpenAIConsumeState) (payload : String) :
    OpenAIConsumeState × Option ConsumeErr :=
  let cancelled : Bool :=
    match st.cancelAfter with
    | some n => decide (n ≤ st.calls)
    | none => false
  let st := { st with calls := st.calls + 1 }
  if cancelled then (st, some .ctxCanceled)
  else if payload = "[DONE]" then (st, some .sseDone)
  else
    match decodeOpenAIChunk payload with
    | none => (st, some .unmarshal)
    | some chunk =>
      let (agg, evs) := applyChunk st.agg chunk
      ({ st with agg := agg, events := st.events ++ evs }, none)

/-- The success tail of `openAIEventStream.consume`: finalize calls,
emit one `tool_call` event each, emit `done`, deliver the assistant. -/
def openAIFinishOk (st : OpenAIConsumeState) (now : Int) :
    List StreamEvent × ConsumeResult :=
  let calls := finalizeToolCalls st.agg
  let callEvents : List StreamEvent :=
    calls.map (fun call =>
      { type := .toolCall, toolName := call.name, toolCallID := call.id,
        arguments := call.arguments })
  let assistant := buildAssistant st.agg calls now
  (st.events ++ callEvents ++
      [{ type := .done, reason := some assistant.stopReason }],
    .ok assistant)

/-- The tail of `openAIEventStream.consume` after `consumeSSE`
returns: error event + error result on a non-`errSSEDone` error,
otherwise the success tail. -/
def openAIFinish (st : OpenAIConsumeState) (errOpt : Option ConsumeErr)
    (now : Int) : List StreamEvent × ConsumeResult :=
  match errOpt with
  | some e =>
    if e = .sseDone then openAIFinishOk st now
    else
      (st.events ++ [{ type := .error, error := e.text }], .err e.text)
  | none => openAIFinishOk st now

/-- `openAIEventStream.consume` end to end: `start` event, SSE scan,
finalization. -/
def openAIConsume (lines : List String) (m : Model) (cancelAfter : Option Nat)
    (now : Int) : List StreamEvent × ConsumeResult :=
  let init : OpenAIConsumeState :=
    { agg := newOpenAIAggregation m
      events := [{ type := .start }]
      cancelAfter := cancelAfter }
  let (st, err) := consumeSSE openAIOnData lines init
  openAIFinish st err now

/-! ## ChatGPT-responses adapter (`chatGPTResponses…`) -/

/-- Truncation of a JSON number literal toward zero, as Go's
`int(v)` conversion of the decoded `float64` (exact for the integral
usage counters that ever reach it). -/
def floatLexemeTruncToInt (lexeme : String) : Int :=
  let cs := lexeme.data
  let (neg, cs) :=
    match cs with
    | '-' :: r => (true, r)
    | _ => (false, cs)
  let (intDs, cs) := spanDigits cs
  let (fracDs, cs) :=
    match cs with
    | '.' :: r => spanDigits r
    | _ => ([], cs)
  let expVal : Int :=
    match cs with
    | e :: r =>
      if e = 'e' ∨ e = 'E' then
        match r with
        | '-' :: r' => -(digitsVal (spanDigits r').1)
        | '+' :: r' => digitsVal (spanDigits r').1
        | _ => digitsVal (spanDigits r).1
      else 0
    | [] => 0
  let mantissa : Nat :=
    (intDs ++ fracDs).foldl (fun a c => a * 10 + (c.toNat - '0'.toNat)) 0
  let scale : Int := expVal - Int.ofNat fracDs.length
  let magnitude : Nat :=
    if 0 ≤ scale then mantissa * 10 ^ scale.toNat else mantissa / 10 ^ (-scale).toNat
  if neg then -(Int.ofNat magnitude) else Int.ofNat magnitude

/-- `intFromAny`: a value decoded from JSON into `any` can only be a
`float64` number here (the `int`, `int64` and `json.Number` arms of
the Go switch are unreachable for such values); everything else
returns 0. -/
def intFromAny (j : Option Json) : Int :=
  match j with
  | some (.num lexeme) => floatLexemeTruncToInt lexeme
  | _ => 0

/-- `chatGPTResponsesSSEEvent`. -/
structure ChatGPTResponsesSSEEvent where
  type : String := ""
  delta : String := ""
  item : List (String × Json) := []
  response : List (String × Json) := []
  deriving Repr

/-- `encoding/json` handling of a `map[string]any` struct field:
absent or null leaves the nil map, an object sets it, anything else is
a decode error. -/
def decObjMapField (m : List (String × Json)) (k : String) :
    Option (List (String × Json)) :=
  match mapGet m k with
  | none => some []
  | some .null => some []
  | some (.obj o) => some o
  | _ => none

/-- `json.Unmarshal([]byte(payload), &event)` for
`chatGPTResponsesSSEEvent`. -/
def decodeChatGPTEvent (payload : String) : Option ChatGPTResponsesSSEEvent :=
  match jsonDecode payload with
  | some (.obj m) => do
    let ty ← decStringField m "type"
    let delta ← decStringField m "delta"
    let item ← decObjMapField m "item"
    let response ← decObjMapField m "response"
    some { type := ty, delta := delta, item := item, response := response }
  | some .null => some {}
  | _ => none

/-- `chatGPTResponsesAggregation`.  `seenToolCall : map[string]bool`
is a list of seen ids. -/
structure ChatGPTAggregation where
  requestModel : Model := {}
  responseModel : String := ""
  text : String := ""
  toolCalls : List ToolCallContent := []
  seenToolCall : List String := []
  usage : Usage := {}
  stopReason : StopReason := .stop
  completed : Bool := false
  deriving Repr

/-- `chatGPTResponsesAggregation.hasOutput`. -/
def ChatGPTAggregation.hasOutput (a : ChatGPTAggregation) : Bool :=
  trimSpace a.text ≠ "" || !a.toolCalls.isEmpty

/-- `extractResponsesErrorMessage`. -/
def extractResponsesErrorMessage (response : List (String × Json)) : String :=
  if response.isEmpty then "chatgpt backend returned response.failed"
  else
    match getObjField response "error" with
    | some errObj =>
      let msgOpt :=
        match getStringFieldOk errObj "message" with
        | some msg => if trimSpace msg ≠ "" then some msg else none
        | none => none
      match msgOpt with
      | some msg => msg
      | none =>
        match getStringFieldOk errObj "code" with
        | some code =>
          if trimSpace code ≠ "" then "chatgpt backend error: " ++ code
          else "chatgpt backend returned response.failed"
        | none => "chatgpt backend returned response.failed"
    | none => "chatgpt backend returned response.failed"

/-- `chatGPTResponsesAggregation.handleOutputItemDone`: ingest one
completed `function_call` output item, de-duplicated by call id, and
emit its `tool_call` event immediately. -/
def handleOutputItemDone (a : ChatGPTAggregation)
    (item : List (String × Json)) : ChatGPTAggregation × List StreamEvent :=
  if item.isEmpty then (a, [])
  else if getStringField item "type" ≠ "function_call" then (a, [])
  else
    let callID := trimSpace (getStringField item "call_id")
    let callID :=
      if callID = "" then "call_" ++ toString (a.toolCalls.length + 1) else callID
    if a.seenToolCall.contains callID then (a, [])
    else
      let name := trimSpace (getStringField item "name")
      let name := if name = "" then "tool" else name
      let args := parseToolArguments (getStringField item "arguments")
      let call : ToolCallContent := { id := callID, name := name, arguments := args }
      ({ a with
          seenToolCall := a.seenToolCall ++ [callID]
          toolCalls := a.toolCalls ++ [call]
          stopReason := .toolUse },
        [{ type := .toolCall, toolName := name, toolCallID := callID,
           arguments := args }])

/-- `chatGPTResponsesAggregation.updateFromResponse`: record the
server-reported model id and usage. -/
def updateFromResponse (a : ChatGPTAggregation)
    (response : List (String × Json)) : ChatGPTAggregation :=
  if response.isEmpty then a
  else
    let a :=
      match getStringFieldOk response "model" with
      | some modelID =>
        if trimSpace modelID ≠ "" then { a with responseModel := trimSpace modelID } else a
      | none => a
    match getObjField response "usage" with
    | none => a
    | some usageRaw =>
      { a with
        usage :=
          { input := intFromAny (mapGet usageRaw "input_tokens")
            output := intFromAny (mapGet usageRaw "output_tokens")
            total := intFromAny (mapGet usageRaw "total_tokens") } }

/-- `chatGPTResponsesAggregation.applyEvent`. -/
def applyEvent (a : ChatGPTAggregation) (event : ChatGPTResponsesSSEEvent) :
    ChatGPTAggregation × List StreamEvent × Option ConsumeErr :=
  if event.type = "response.output_text.delta" then
    if trimSpace event.delta ≠ "" then
      ({ a with text := a.text ++ event.delta },
        [{ type := .textDelta, delta := event.delta }], none)
    else (a, [], none)
  else if event.type = "response.reasoning_text.delta" ∨
      event.type = "response.reasoning_summary_text.delta" then
    if trimSpace event.delta ≠ "" then
      (a, [{ type := .thinkingDelta, delta := event.delta }], none)
    else (a, [], none)
  else if event.type = "response.output_item.done" then
    let (a, evs) := handleOutputItemDone a event.item
    (a, evs, none)
  else if event.type = "response.failed" then
    (a, [], some (.respFailed (extractResponsesErrorMessage event.response)))
  else if event.type = "response.completed" ∨ event.type = "response.done" then
    (updateFromResponse { a with completed := true } event.response, [], none)
  else (a, [], none)

/-- `chatGPTResponsesAggregation.buildAssistant`: forces
`stop_reason = tool_use` whenever calls were accumulated; provider is
`chatgpt`. -/
def chatGPTBuildAssistant (a : ChatGPTAggregation) (now : Int) : AssistantMessage :=
  let content : List RawPart :=
    (if trimSpace a.text ≠ "" then [.text { text := trimSpace a.text }] else []) ++
      a.toolCalls.map .toolCall
  let modelID := if a.responseModel = "" then a.requestModel.id else a.responseModel
  let stopReason := if !a.toolCalls.isEmpty then StopReason.toolUse else a.stopReason
  { role := "assistant"
    contentRaw := content
    provider := "chatgpt"
    model := modelID
    stopReason := stopReason
    usage := a.usage
    timestamp := now }

/-- State threaded through the chatgpt-responses `onData` closure
(see `OpenAIConsumeState` for the cancellation model). -/
structure ChatGPTConsumeState where
  agg : ChatGPTAggregation := {}
  events : List StreamEvent := []
  calls : Nat := 0
  cancelAfter : Option Nat := none
  deriving Repr

/-- The chatgpt-responses `onData` body: context check, `[DONE]`
sentinel, JSON decode, `applyEvent`. -/
def chatGPTOnData (st : ChatGPTConsumeState) (payload : String) :
    ChatGPTConsumeState × Option ConsumeErr :=
  let cancelled : Bool :=
    match st.cancelAfter with
    | some n => decide (n ≤ st.calls)
    | none => false
  let st := { st with calls := st.calls + 1 }
  if cancelled then (st, some .ctxCanceled)
  else if payload = "[DONE]" then (st, some .sseDone)
  else
    match decodeChatGPTEvent payload with
    | none => (st, some .unmarshal)
    | some event =>
      let (agg, evs, err) := applyEvent st.agg event
      ({ st with agg := agg, events := st.events ++ evs }, err)

/-- The `completed` gate and success finalization of the responses
consume loop. -/
def chatGPTCompletedCheck (st : ChatGPTConsumeState) (now : Int) :
    List StreamEvent × ConsumeResult :=
  if !st.agg.completed then
    (st.events ++
        [{ type := .error, error := "stream closed before response.completed" }],
      .err "stream closed before response.completed")
  else
    let assistant := chatGPTBuildAssistant st.agg now
    (st.events ++ [{ type := .done, reason := some assistant.stopReason }],
      .ok assistant)

/-- Lines 1281–1304 of `chatGPTResponsesEventStream.consume`: the
common tail after the error-override block — surface a remaining
error, then demand the `completed` marker, then finalize. -/
def chatGPTFinishTail (st : ChatGPTConsumeState) (errOpt : Option ConsumeErr)
    (now : Int) : List StreamEvent × ConsumeResult :=
  match errOpt with
  | some e =>
    if e = .sseDone then chatGPTCompletedCheck st now
    else (st.events ++ [{ type := .error, error := e.text }], .err e.text)
  | none => chatGPTCompletedCheck st now

/-- Lines 1270–1280 of `chatGPTResponsesEventStream.consume`: the
error-override block.  When the aggregation is already `completed`
and a non-`errSSEDone` error arrives, the source sets `err = nil` and
then evaluates `err.Error()` in the cancellation probe — a nil-pointer
dereference, modelled as `.panicked`.  A cancellation-shaped error
with accumulated output is converted into a successful completion. -/
def chatGPTFinish (st : ChatGPTConsumeState) (errOpt : Option ConsumeErr)
    (now : Int) : List StreamEvent × ConsumeResult :=
  match errOpt with
  | some e =>
    if e = .sseDone then chatGPTFinishTail st (some e) now
    else if st.agg.completed then (st.events, .panicked)
    else if e = .ctxCanceled ∨ strContainsSub e.text "context canceled" then
      if st.agg.hasOutput then
        chatGPTFinishTail { st with agg := { st.agg with completed := true } } none now
      else chatGPTFinishTail st (some e) now
    else chatGPTFinishTail st (some e) now
  | none => chatGPTFinishTail st none now

/-- `chatGPTResponsesEventStream.consume` end to end. -/
def chatGPTConsume (lines : List String) (m : Model) (cancelAfter : Option Nat)
    (now : Int) : List StreamEvent × ConsumeResult :=
  let init : ChatGPTConsumeState :=
    { agg := { requestModel := m }
      events := [{ type := .start }]
      cancelAfter := cancelAfter }
  let (st, err) := consumeSSE chatGPTOnData lines init
  chatGPTFinish st err now

end Provider

namespace Agent

/-! ## The agent turn runner (`agent/runner.go`, `agent/agent.go`)

The runner is embedded as a pure function from an initial agent state,
the runner options, and a per-round script of adapter behaviour to the
final state, the emitted observable trace (observer events and
`is_streaming` writes, in program order), the returned assistant/error
pair, and the `return` statement it exited through.  The scripted
adapter plays the role of the `provider.Client` mock used by the
package's own tests. -/

/-- One element of the session `Messages []any` log. -/
inductive SessEntry where
  | msg (m : Message)
  | assistant (m : AssistantMessage)
  deriving Repr

/-- `agent.ToolResult`. -/
structure ToolResult where
  content : List TextContent := []
  details : List (String × Json) := []
  deriving Repr

/-- The `agent.Tool` interface: `Execute` may fail with an error
message. -/
structure AgentTool where
  name : String
  description : String := ""
  parameters : List (String × Json) := []
  exec : String → List (String × Json) → Except String ToolResult

/-- `agent.EventType`. -/
inductive AgentEventType where
  | agentStart
  | agentEnd
  | turnStart
  | turnEnd
  | messageStart
  | messageUpdate
  | messageEnd
  | toolExecutionStart
  | toolExecutionEnd
  deriving DecidableEq, Repr

/-- The `Message any` payload of an `agent.Event`. -/
inductive AgentEventPayload where
  | empty
  | streamEvent (e : StreamEvent)
  | assistantMsg (m : AssistantMessage)
  | message (m : Message)
  deriving Repr

/-- `agent.Event`. -/
structure AgentEvent where
  type : AgentEventType
  message : AgentEventPayload := .empty
  toolName : String := ""
  toolCallID : String := ""
  isError : Bool := false
  deriving Repr

/-- `agent.State` (the observer list lives outside this model; the
`emit` fan-out is recorded in the trace instead). -/
structure AgentState where
  systemPrompt : String := ""
  model : Option Model := none
  thinking : String := "off"
  messages : List SessEntry := []
  isStreaming : Bool := false
  tools : List (Option AgentTool) := []

/-- `mapStreamEventType` (its `default` arm is unreachable over the
closed event type). -/
def mapStreamEventType : StreamEventType → AgentEventType
  | .start => .messageStart
  | .textDelta => .messageUpdate
  | .thinkingDelta => .messageUpdate
  | .toolCall => .toolExecutionStart
  | .done => .messageEnd
  | .error => .toolExecutionEnd

/-- `findTool`: first tool whose name matches exactly; `nil` slots are
skipped. -/
def findTool (tools : List (Option AgentTool)) (name : String) : Option AgentTool :=
  match tools with
  | [] => none
  | none :: rest => findTool rest name
  | some tool :: rest => if tool.name = name then some tool else findTool rest name

/-- The runner-side `extractToolCalls` (`agent/runner.go`): typed
tool-call parts are kept as they are; map-shaped parts tagged
`toolCall` are rebuilt, with non-map `arguments` replaced by the empty
map. -/
def extractToolCalls (content : List RawPart) : List ToolCallContent :=
  content.foldl
    (fun out item =>
      match item with
      | .toolCall v => out ++ [v]
      | .map v =>
        if getStringField v "type" ≠ contentToolCallTag then out
        else
          out ++
            [{ id := getStringField v "id"
               name := getStringField v "name"
               arguments :=
                 match mapGet v "arguments" with
                 | some (.obj args) => args
                 | _ => [] }]
      | _ => out)
    []

/-- `toModelMessages`: project the heterogeneous session log to wire
`Message`s. -/
def toModelMessages (entries : List SessEntry) : List Message :=
  entries.foldl
    (fun out item =>
      match item with
      | .msg v => out ++ [v]
      | .assistant v =>
        out ++ [{ role := roleAssistant, contentRaw := v.contentRaw, timestamp := v.timestamp }])
    []

/-- `toModelTools`. -/
def toModelTools (tools : List (Option AgentTool)) : List ModelTool :=
  if tools.isEmpty then []
  else
    tools.foldl
      (fun out t =>
        match t with
        | none => out
        | some tool =>
          out ++ [{ name := tool.name, description := tool.description,
                    parameters := tool.parameters }])
      []

/-- `executeToolCall`: the emitted `tool_execution_start` event, the
`tool_result` message, and the `hasError` flag.  The three synthetic
texts for the unknown-tool, tool-error and empty-result cases are those
of the source. -/
def executeToolCall (tools : List (Option AgentTool)) (call : ToolCallContent)
    (now : Int) : List AgentEvent × Message × Bool :=
  let startEv : AgentEvent :=
    { type := .toolExecutionStart, toolName := call.name, toolCallID := call.id }
  match findTool tools call.name with
  | none =>
    ([startEv],
      { role := roleToolResult
        toolCallID := call.id
        toolName := call.name
        contentRaw := [.text { text := "Tool not found: " ++ call.name }]
        timestamp := now },
      true)
  | some tool =>
    match tool.exec call.id call.arguments with
    | .error errMsg =>
      ([startEv],
        { role := roleToolResult
          toolCallID := call.id
          toolName := call.name
          contentRaw := [.text { text := "Tool execution error: " ++ errMsg }]
          timestamp := now },
        true)
    | .ok result =>
      let content : List RawPart := result.content.map .text
      let content :=
        if content.isEmpty then [.text { text := "(tool returned no output)" }]
        else content
      ([startEv],
        { role := roleToolResult
          toolCallID := call.id
          toolName := call.name
          contentRaw := content
          timestamp := now },
        false)

/-- `agent.RunnerOptions`.  The `Client` interface value is replaced
by the presence flag plus the per-round behaviour script handed to
`runTurn`. -/
structure RunnerOptions where
  hasClient : Bool := true
  apiKey : String := ""
  sessionID : String := ""
  tools : List (Option AgentTool) := []
  maxToolRounds : Int := 0

/-- One round of scripted adapter behaviour: `Client.Stream` fails
immediately, or the stream delivers `events` and then its `Result()`
yields an error or the finalized assistant message. -/
inductive RoundOutcome where
  | streamErr (e : String)
  | result (events : List StreamEvent) (res : Except String AssistantMessage)

/-- One observable action of the runner, in program order. -/
inductive TraceAction where
  | emit (e : AgentEvent)
  | setStreaming (b : Bool)
  deriving Repr

/-- Which `return` statement `RunTurn` exited through. -/
inductive ExitSite where
  | validationErr
  | streamCallErr
  | resultReadErr
  | finished
  | roundsExhausted
  deriving DecidableEq, Repr

/-- Everything `RunTurn` produces: final state, trace, the Go
`(assistant, error)` pair, and the exit site. -/
structure RunTurnResult where
  state : AgentState
  trace : List TraceAction := []
  assistant : Option AssistantMessage := none
  errMsg : Option String := none
  exit : ExitSite

/-- The tool-dispatch segment of one round: append a `tool_result`
per call, emitting `tool_execution_start` / `tool_execution_end`
(with `IsError`) around each. -/
def dispatchToolCalls (tools : List (Option AgentTool)) (now : Int)
    (calls : List ToolCallContent) (st : AgentState) (trace : List TraceAction) :
    AgentState × List TraceAction :=
  calls.foldl
    (fun acc call =>
      let (ast, atr) := acc
      let (evs, trMsg, hasError) := executeToolCall tools call now
      let ast := { ast with messages := ast.messages ++ [.msg trMsg] }
      let atr := atr ++ evs.map TraceAction.emit ++
        [.emit { type := .toolExecutionEnd, toolName := call.name,
                 toolCallID := call.id, isError := hasError,
                 message := .message trMsg }]
      (ast, atr))
    (st, trace)

/-- The runner's timestamp fill: a zero timestamp is replaced with
`now`. -/
def timestampFill (m : AssistantMessage) (now : Int) : AssistantMessage :=
  if m.timestamp = 0 then { m with timestamp := now } else m

/-- What one iteration of the round loop decides: return from
`RunTurn`, or proceed to the next round with the round's assistant as
the new `lastAssistant`. -/
inductive RoundStep where
  | exit (st : AgentState) (trace : List TraceAction)
      (assistant : Option AssistantMessage) (err : Option String) (site : ExitSite)
  | next (st : AgentState) (trace : List TraceAction) (result : AssistantMessage)

/-- The body of one iteration of the `for round := 0; round < maxRounds`
loop of `RunTurn`: scripted stream call, event forwarding, result
read, timestamp fill, append, tool extraction, and either the
non-tool return or the tool dispatch. -/
def runRound (script : Nat → RoundOutcome) (tools : List (Option AgentTool))
    (now : Int) (round : Nat) (st : AgentState) (trace : List TraceAction) :
    RoundStep :=
  match script round with
  | .streamErr e => .exit st trace none (some e) .streamCallErr
  | .result events res =>
    let trace := trace ++ events.map
      (fun ev => TraceAction.emit { type := mapStreamEventType ev.type, message := .streamEvent ev })
    match res with
    | .error e => .exit st trace none (some e) .resultReadErr
    | .ok result =>
      let result := timestampFill result now
      let st := { st with messages := st.messages ++ [.assistant result] }
      let trace := trace ++ [.emit { type := .messageEnd, message := .assistantMsg result }]
      let toolCalls := extractToolCalls result.contentRaw
      if toolCalls.isEmpty ∨ result.stopReason ≠ .toolUse then
        .exit st (trace ++ [.emit { type := .turnEnd }]) (some result) none .finished
      else
        let p := dispatchToolCalls tools now toolCalls st trace
        .next p.1 p.2 result

/-- The round loop, structured on the remaining round budget. -/
def runLoop (script : Nat → RoundOutcome) (tools : List (Option AgentTool))
    (now : Int) (round : Nat) (lastAssistant : Option AssistantMessage)
    (st : AgentState) (trace : List TraceAction) :
    Nat → AgentState × List TraceAction × Option AssistantMessage × Option String × ExitSite
  | 0 =>
    let trace := trace ++ [.emit { type := .turnEnd }]
    match lastAssistant with
    | some la =>
      (st, trace, some la, some "max tool rounds reached without final assistant response",
        .roundsExhausted)
    | none =>
      (st, trace, none, some "max tool rounds reached without assistant response",
        .roundsExhausted)
  | remaining + 1 =>
    match runRound script tools now round st trace with
    | .exit st' tr a e x => (st', tr, a, e, x)
    | .next st' tr result => runLoop script tools now (round + 1) (some result) st' tr remaining

/-- `Agent.RunTurn`.  The deferred `setStreaming(false)` runs after
whichever return fires, hence the trailing `setStreaming false` on
every post-validation path. -/
def runTurn (st : AgentState) (options : RunnerOptions)
    (script : Nat → RoundOutcome) (now : Int) : RunTurnResult :=
  if !options.hasClient then
    { state := st, errMsg := some "provider client is required", exit := .validationErr }
  else
    match st.model with
    | none => { state := st, errMsg := some "model is required", exit := .validationErr }
    | some _ =>
      let tools := if options.tools.isEmpty then st.tools else options.tools
      let maxRounds : Nat := if options.maxToolRounds ≤ 0 then 8 else options.maxToolRounds.toNat
      let trace : List TraceAction := [.emit { type := .turnStart }, .setStreaming true]
      let st := { st with isStreaming := true }
      let (st, trace, asst, err, exit) := runLoop script tools now 0 none st trace maxRounds
      { state := { st with isStreaming := false }
        trace := trace ++ [.setStreaming false]
        assistant := asst
        errMsg := err
        exit := exit }

end Agent

namespace Sdk

/-! ## The SDK session (`AgentSession.Prompt`)

The session couples an agent, a session manager and an optional
provider client.  `Prompt` is embedded with the turn runner abstracted
as a state transformer (`turn`), since the streaming-behaviour branch
this model verifies returns before the runner is reached; the
in-memory manager's `AppendMessage` (which cannot fail) is the
persistence model. -/

open Agent

/-- `sdk.PromptOptions`. -/
structure SdkPromptOptions where
  images : List ImageContent := []
  streamingBehavior : String := ""

/-- `userMessage` (`coding/sdk`): optional non-blank text part, then
the image parts in order. -/
def userMessage (text : String) (images : List ImageContent) : Message :=
  { role := roleUser
    contentRaw :=
      (if trimSpace text ≠ "" then [RawPart.text { text := text }] else []) ++
        images.map RawPart.image }

/-- The state owned by an `AgentSession`: the agent state (whose
queues live on the agent in Go) and the manager's persisted log. -/
structure SdkSessionState where
  agentState : AgentState
  steerQ : List Message := []
  followQ : List Message := []
  persisted : List SessEntry := []
  hasProviderClient : Bool := false

/-- What one `Prompt` call produced: the new state, the returned
error, and how many times the turn runner was invoked. -/
structure SdkPromptOutcome where
  state : SdkSessionState
  errMsg : Option String := none
  turnInvocations : Nat := 0

/-- `AgentSession.Prompt`.  `turn` abstracts
`agent.RunTurn` as a transformer of the agent state returning the
error of the round loop; it is only reached on the non-queueing
path. -/
def sdkPrompt (s : SdkSessionState) (text : String) (options : SdkPromptOptions)
    (turn : AgentState → AgentState × Option String) : SdkPromptOutcome :=
  let msg := userMessage text options.images
  if s.agentState.isStreaming ∧ options.streamingBehavior = "followUp" then
    { state := { s with followQ := s.followQ ++ [msg] } }
  else if s.agentState.isStreaming ∧ options.streamingBehavior = "steer" then
    { state := { s with steerQ := s.steerQ ++ [msg] } }
  else
    let ast := { s.agentState with messages := s.agentState.messages ++ [.msg msg] }
    let s := { s with agentState := ast, persisted := s.persisted ++ [.msg msg] }
    if !s.hasProviderClient then { state := s }
    else
      let beforeCount := s.agentState.messages.length
      let (ast', err) := turn s.agentState
      let s := { s with agentState := ast' }
      match err with
      | some e => { state := s, errMsg := some e, turnInvocations := 1 }
      | none =>
        let newEntries := s.agentState.messages.drop beforeCount
        { state := { s with persisted := s.persisted ++ newEntries }
          turnInvocations := 1 }

/-- `Agent.Steer`: unconditional enqueue. -/
def agentSteer (s : SdkSessionState) (msg : Message) : SdkSessionState :=
  { s with steerQ := s.steerQ ++ [msg] }

/-- `Agent.FollowUp`: unconditional enqueue. -/
def agentFollowUp (s : SdkSessionState) (msg : Message) : SdkSessionState :=
  { s with followQ := s.followQ ++ [msg] }

end Sdk

namespace Queue

/-! ## The inbound queue retry loop (`agent/runner.go`, `Queue`)

`handleWithRetry` is embedded over an outcome script: `handler k` is
whether the `k`-th invocation (0-based) succeeds, and
`cancelledAtWait k` is whether the worker context is observed
cancelled at the retry wait that follows attempt `k`.  `MaxRetries`
is a `Nat` because `NewQueue` clamps negative values to 0 before the
loop can run. -/

/-- `agent.QueueOptions`. -/
structure QueueOptions where
  workers : Int := 0
  bufferSize : Int := 0
  maxRetries : Int := 0
  retryDelayMs : Int := 0
  deriving DecidableEq, Repr

/-- The defaulting performed by `NewQueue` (`retryDelay` in
milliseconds). -/
def normalizeQueueOptions (o : QueueOptions) : QueueOptions :=
  { workers := if o.workers ≤ 0 then 1 else o.workers
    bufferSize := if o.bufferSize ≤ 0 then 256 else o.bufferSize
    maxRetries := if o.maxRetries < 0 then 0 else o.maxRetries
    retryDelayMs := if o.retryDelayMs ≤ 0 then 200 else o.retryDelayMs }

/-- The `for attempt := 0; attempt <= maxRetries` loop of
`handleWithRetry`, structured on the remaining retry budget; yields
(number of handler invocations, whether the last one succeeded). -/
def retryLoop (handler cancelledAtWait : Nat → Bool) : Nat → Nat → Nat × Bool
  | attempt, 0 => (1, handler attempt)
  | attempt, budget + 1 =>
    if handler attempt then (1, true)
    else if cancelledAtWait attempt then (1, false)
    else
      let r := retryLoop handler cancelledAtWait (attempt + 1) budget
      (r.1 + 1, r.2)

/-- `Queue.handleWithRetry`: up to `1 + maxRetries` invocations,
stopping at the first success or at a context cancellation between
attempts; the message is dropped either way (the function returns
nothing). -/
def handleWithRetry (handler cancelledAtWait : Nat → Bool) (maxRetries : Nat) :
    Nat × Bool :=
  retryLoop handler cancelledAtWait 0 maxRetries

end Queue

/-! # Verified properties -/

/-! ## C9 — inbound-queue retry bound -/

namespace Queue

/-- The invocation count of the retry loop is bounded by the remaining
budget plus one. -/
lemma retryLoop_count_le (handler cancelledAtWait : Nat → Bool) :
    ∀ budget attempt, (retryLoop handler cancelledAtWait attempt budget).1 ≤ budget + 1 := by
  intro budget
  induction budget with
  | zero => intro attempt; simp [retryLoop]
  | succ b ih =>
    intro attempt
    simp only [retryLoop]
    split
    · simp
    · split
      · simp
      · have := ih (attempt + 1)
        simp only []
        omega

/-- Every invocation before the last one failed. -/
lemma retryLoop_earlier_failed (handler cancelledAtWait : Nat → Bool) :
    ∀ budget attempt k, k + 1 < (retryLoop handler cancelledAtWait attempt budget).1 →
      handler (attempt + k) = false := by
  intro budget
  induction budget with
  | zero => intro attempt k hk; simp [retryLoop] at hk
  | succ b ih =>
    intro attempt k hk
    simp only [retryLoop] at hk
    by_cases hh : handler attempt
    · simp [hh] at hk
    · by_cases hc : cancelledAtWait attempt
      · simp [hh, hc] at hk
      · simp only [hh, hc, if_false, Bool.false_eq_true, if_neg] at hk
        match k with
        | 0 => simpa using hh
        | k' + 1 =>
          have hk' : k' + 1 < (retryLoop handler cancelledAtWait (attempt + 1) b).1 := by
            omega
          have := ih (attempt + 1) k' hk'
          have harith : attempt + 1 + k' = attempt + (k' + 1) := by omega
          rwa [harith] at this

/-- C9: an inbound-queue worker invokes the handler at most
`1 + max_retries` times, stops at the first success (every invocation
before the last one failed), and — concretely — a handler that fails
twice then succeeds under `max_retries = 3` is invoked exactly 3
times, the last invocation succeeding, with nothing further (the
message is dropped silently: `handleWithRetry` yields nothing else). -/
theorem queue_retry_invocation_bound :
    (∀ (handler cancelledAtWait : Nat → Bool) (maxRetries : Nat),
        (handleWithRetry handler cancelledAtWait maxRetries).1 ≤ 1 + maxRetries) ∧
    (∀ (handler cancelledAtWait : Nat → Bool) (maxRetries k : Nat),
        k + 1 < (handleWithRetry handler cancelledAtWait maxRetries).1 →
        handler k = false) ∧
    handleWithRetry (fun k => decide (2 ≤ k)) (fun _ => false) 3 = (3, true) := by
  refine ⟨?_, ?_, by decide⟩
  · intro handler cancelledAtWait maxRetries
    have := retryLoop_count_le handler cancelledAtWait maxRetries 0
    simpa [handleWithRetry] using by omega
  · intro handler cancelledAtWait maxRetries k hk
    have := retryLoop_earlier_failed handler cancelledAtWait maxRetries 0 k hk
    simpa using this

/-- Witness for C9 at concrete inputs. -/
theorem queue_retry_invocation_bound_witness :
    (handleWithRetry (fun _ => false) (fun _ => false) 2).1 ≤ 1 + 2 ∧
    (fun k => decide (2 ≤ k)) 0 = false :=
  ⟨queue_retry_invocation_bound.1 (fun _ => false) (fun _ => false) 2,
    queue_retry_invocation_bound.2.1 (fun k => decide (2 ≤ k)) (fun _ => false) 3 0
      (by decide)⟩

end Queue

/-! ## C7 — tool-argument parsing -/

/-- Object discriminator on JSON values (specification-side helper). -/
def Json.isObj : Json → Bool
  | .obj _ => true
  | _ => false

/-- C7 (amended): `parse_tool_arguments` on empty/whitespace input
yields `{}`; a JSON object is returned as decoded; the JSON literal
`null` also yields `{}` (Go unmarshals `null` into a map without
error); any other decoded value `v` yields `{ value: v }`; malformed
JSON yields `{ _raw: trim(s) }`. -/
theorem parse_tool_arguments_spec (s : String) :
    (trimSpace s = "" → parseToolArguments s = []) ∧
    (∀ kvs, jsonDecode (trimSpace s) = some (.obj kvs) → parseToolArguments s = kvs) ∧
    (jsonDecode (trimSpace s) = some .null → parseToolArguments s = []) ∧
    (∀ v, jsonDecode (trimSpace s) = some v → v.isObj = false → v ≠ .null →
        parseToolArguments s = [("value", v)]) ∧
    (jsonDecode (trimSpace s) = none → trimSpace s ≠ "" →
        parseToolArguments s = [("_raw", .str (trimSpace s))]) := by
  by_cases h0 : trimSpace s = ""
  · have hdec : jsonDecode (trimSpace s) = none := by rw [h0]; rfl
    refine ⟨fun _ => by simp [parseToolArguments, h0], ?_, ?_, ?_, ?_⟩
    · intro kvs hk; rw [hdec] at hk; exact Option.noConfusion hk
    · intro hk; rw [hdec] at hk; exact Option.noConfusion hk
    · intro v hv _ _; rw [hdec] at hv; exact Option.noConfusion hv
    · intro _ hne; exact absurd h0 hne
  · have hps : parseToolArguments s =
        match goUnmarshalMap (trimSpace s) with
        | some out => out
        | none =>
          match jsonDecode (trimSpace s) with
          | some anyValue => [("value", anyValue)]
          | none => [("_raw", .str (trimSpace s))] := by
      simp [parseToolArguments, h0]
    refine ⟨fun h => absurd h h0, ?_, ?_, ?_, ?_⟩
    · intro kvs hk
      rw [hps]
      simp [goUnmarshalMap, hk]
    · intro hk
      rw [hps]
      simp [goUnmarshalMap, hk]
    · intro v hv hobj hnull
      rw [hps]
      match v, hobj, hnull with
      | .null, _, hnull => exact absurd rfl hnull
      | .bool b, _, _ => simp [goUnmarshalMap, hv]
      | .num l, _, _ => simp [goUnmarshalMap, hv]
      | .str t, _, _ => simp [goUnmarshalMap, hv]
      | .arr xs, _, _ => simp [goUnmarshalMap, hv]
      | .obj kvs, hobj, _ => exact absurd hobj (by simp [Json.isObj])
    · intro hd _
      rw [hps]
      simp [goUnmarshalMap, hd]

/-- Witness for C7's amended statement at concrete inputs. -/
theorem parse_tool_arguments_spec_witness :
    parseToolArguments "   " = [] ∧
    parseToolArguments "\x7b\"a\": 1\x7d" = [("a", Json.num "1")] ∧
    parseToolArguments "7" = [("value", Json.num "7")] ∧
    parseToolArguments " \x7bbad " = [("_raw", Json.str "\x7bbad")] :=
  ⟨(parse_tool_arguments_spec "   ").1 rfl,
    (parse_tool_arguments_spec "\x7b\"a\": 1\x7d").2.1 [("a", Json.num "1")] rfl,
    (parse_tool_arguments_spec "7").2.2.2.1 (Json.num "7") rfl rfl
      (fun h => Json.noConfusion h),
    (parse_tool_arguments_spec " \x7bbad ").2.2.2.2 rfl (by decide)⟩

/-- C7 counterexample to the claim as stated: `"null"` decodes as the
non-object JSON value `null`, yet `parse_tool_arguments` yields the
empty mapping, not `{ value: null }` — Go's `json.Unmarshal` of `null`
into a `map[string]any` succeeds and leaves the map nil. -/
theorem parse_tool_arguments_null_counterexample :
    jsonDecode (trimSpace "null") = some Json.null ∧
    Json.null.isObj = false ∧
    parseToolArguments "null" = [] ∧
    parseToolArguments "null" ≠ [("value", Json.null)] := by
  refine ⟨rfl, rfl, rfl, ?_⟩
  intro h
  rw [show parseToolArguments "null" = [] from rfl] at h
  exact List.noConfusion h

/-! ## C6 — prompting a streaming session queues the message -/

namespace Sdk

open Agent

/-- C6: while the session is streaming, a `Prompt` with streaming
behaviour `steer` (or `followUp`) only appends the built user message
to the corresponding FIFO queue and succeeds: the whole-outcome
equality says the message log, the persisted log and the other queue
are untouched, the returned error is `none`, and the turn runner is
never invoked. -/
theorem session_prompt_streaming_queues
    (s : SdkSessionState) (text : String) (options : SdkPromptOptions)
    (turn : AgentState → AgentState × Option String)
    (hstream : s.agentState.isStreaming = true) :
    (options.streamingBehavior = "steer" →
      sdkPrompt s text options turn =
        { state := { s with steerQ := s.steerQ ++ [userMessage text options.images] },
          errMsg := none, turnInvocations := 0 }) ∧
    (options.streamingBehavior = "followUp" →
      sdkPrompt s text options turn =
        { state := { s with followQ := s.followQ ++ [userMessage text options.images] },
          errMsg := none, turnInvocations := 0 }) := by
  constructor
  · intro hb
    simp [sdkPrompt, hstream, hb]
  · intro hb
    simp [sdkPrompt, hstream, hb]

/-- Witness for C6 at a concrete streaming session. -/
theorem session_prompt_streaming_queues_witness :
    sdkPrompt
        { agentState := { isStreaming := true }, steerQ := [], followQ := [] }
        "wait" { streamingBehavior := "steer" } (fun a => (a, none)) =
      { state :=
          { agentState := { isStreaming := true }, steerQ := [userMessage "wait" []],
            followQ := [] },
        errMsg := none, turnInvocations := 0 } :=
  (session_prompt_streaming_queues
      { agentState := { isStreaming := true }, steerQ := [], followQ := [] }
      "wait" { streamingBehavior := "steer" } (fun a => (a, none)) rfl).1 rfl

end Sdk

/-! ## C5 — tool dispatch errors are non-terminal -/

namespace Agent

/-- A `tool_execution_end` emission carrying `is_error = true`. -/
def isToolExecEndErr : TraceAction → Bool
  | .emit e => e.type == .toolExecutionEnd && e.isError
  | _ => false

/-- A `tool_execution_end` emission carrying `is_error = false`. -/
def isToolExecEndOk : TraceAction → Bool
  | .emit e => e.type == .toolExecutionEnd && !e.isError
  | _ => false

/-- Concrete fixtures used by the runner scenarios: the triggering
user entry, an assistant round requesting one tool call, and a final
plain-text assistant round. -/
def sampleUserEntry : SessEntry :=
  .msg { role := roleUser, contentRaw := [.text { text := "hi" }], timestamp := 1 }

/-- A tool-use assistant message with a single call to `name`. -/
def asstToolCallMsg (name : String) : AssistantMessage :=
  { contentRaw := [.toolCall { id := "call_1", name := name, arguments := [] }]
    stopReason := .toolUse
    timestamp := 5 }

/-- A final plain-text assistant message. -/
def asstDoneMsg : AssistantMessage :=
  { contentRaw := [.text { text := "done" }], stopReason := .stop, timestamp := 5 }

/-- A script whose first round is `first` and whose later rounds stop
with `asstDoneMsg`. -/
def twoRoundScript (first : RoundOutcome) : Nat → RoundOutcome :=
  fun n => if n = 0 then first else .result [] (.ok asstDoneMsg)

/-- A tool that always fails. -/
def brokenTool : AgentTool :=
  { name := "broken_tool", exec := fun _ _ => .error "boom" }

/-- A tool that succeeds with empty content. -/
def emptyTool : AgentTool :=
  { name := "empty_tool", exec := fun _ _ => .ok {} }

/-- A tool that succeeds with content `"ok"`. -/
def loopTool : AgentTool :=
  { name := "loop_tool", exec := fun _ _ => .ok { content := [{ text := "ok" }] } }

/-- Base agent state for the runner scenarios. -/
def scenarioState (tools : List (Option AgentTool)) : AgentState :=
  { model := some { provider := "mock", id := "test-model" }
    messages := [sampleUserEntry]
    tools := tools }

/-- C5: (i) an unknown tool name yields a `tool_result` message with
text `Tool not found: <name>` and `hasError = true`; (ii) a tool error
yields `Tool execution error: <msg>` and `hasError = true`; (iii) a
successful empty result yields the single text part
`(tool returned no output)` and `hasError = false`; and (iv) in each
of the three cases a two-round run proceeds to the next round and
returns the second assistant message, the emitted
`tool_execution_end` carrying the corresponding `is_error` flag. -/
theorem tool_dispatch_non_terminal :
    (∀ (tools : List (Option AgentTool)) (call : ToolCallContent) (now : Int),
      findTool tools call.name = none →
      executeToolCall tools call now =
        ([{ type := .toolExecutionStart, toolName := call.name, toolCallID := call.id }],
          { role := roleToolResult, toolCallID := call.id, toolName := call.name,
            contentRaw := [.text { text := "Tool not found: " ++ call.name }],
            timestamp := now },
          true)) ∧
    (∀ (tools : List (Option AgentTool)) (call : ToolCallContent) (now : Int)
        (tool : AgentTool) (errMsg : String),
      findTool tools call.name = some tool →
      tool.exec call.id call.arguments = .error errMsg →
      executeToolCall tools call now =
        ([{ type := .toolExecutionStart, toolName := call.name, toolCallID := call.id }],
          { role := roleToolResult, toolCallID := call.id, toolName := call.name,
            contentRaw := [.text { text := "Tool execution error: " ++ errMsg }],
            timestamp := now },
          true)) ∧
    (∀ (tools : List (Option AgentTool)) (call : ToolCallContent) (now : Int)
        (tool : AgentTool) (result : ToolResult),
      findTool tools call.name = some tool →
      tool.exec call.id call.arguments = .ok result →
      result.content = [] →
      executeToolCall tools call now =
        ([{ type := .toolExecutionStart, toolName := call.name, toolCallID := call.id }],
          { role := roleToolResult, toolCallID := call.id, toolName := call.name,
            contentRaw := [.text { text := "(tool returned no output)" }],
            timestamp := now },
          false)) ∧
    (let run1 := runTurn (scenarioState []) {}
        (twoRoundScript (.result [] (.ok (asstToolCallMsg "missing_tool")))) 9
     run1.assistant = some asstDoneMsg ∧ run1.errMsg = none ∧ run1.exit = .finished ∧
       run1.trace.countP isToolExecEndErr = 1) ∧
    (let run2 := runTurn (scenarioState [some brokenTool]) {}
        (twoRoundScript (.result [] (.ok (asstToolCallMsg "broken_tool")))) 9
     run2.assistant = some asstDoneMsg ∧ run2.errMsg = none ∧ run2.exit = .finished ∧
       run2.trace.countP isToolExecEndErr = 1) ∧
    (let run3 := runTurn (scenarioState [some emptyTool]) {}
        (twoRoundScript (.result [] (.ok (asstToolCallMsg "empty_tool")))) 9
     run3.assistant = some asstDoneMsg ∧ run3.errMsg = none ∧ run3.exit = .finished ∧
       run3.trace.countP isToolExecEndErr = 0 ∧
       run3.trace.countP isToolExecEndOk = 1) := by
  refine ⟨?_, ?_, ?_, ?_, ?_, ?_⟩
  · intro tools call now hfind
    simp [executeToolCall, hfind]
  · intro tools call now tool errMsg hfind hexec
    simp [executeToolCall, hfind, hexec]
  · intro tools call now tool result hfind hexec hempty
    simp [executeToolCall, hfind, hexec, hempty, List.isEmpty]
  · exact ⟨rfl, rfl, rfl, by decide⟩
  · exact ⟨rfl, rfl, rfl, by decide⟩
  · exact ⟨rfl, rfl, rfl, by decide, by decide⟩

/-- Witness for C5's quantified cases at concrete inputs. -/
theorem tool_dispatch_non_terminal_witness :
    executeToolCall [] { id := "c1", name := "missing_tool" } 4 =
      ([{ type := .toolExecutionStart, toolName := "missing_tool", toolCallID := "c1" }],
        { role := roleToolResult, toolCallID := "c1", toolName := "missing_tool",
          contentRaw := [.text { text := "Tool not found: missing_tool" }],
          timestamp := 4 },
        true) ∧
    executeToolCall [some brokenTool] { id := "c2", name := "broken_tool" } 4 =
      ([{ type := .toolExecutionStart, toolName := "broken_tool", toolCallID := "c2" }],
        { role := roleToolResult, toolCallID := "c2", toolName := "broken_tool",
          contentRaw := [.text { text := "Tool execution error: boom" }],
          timestamp := 4 },
        true) ∧
    executeToolCall [some emptyTool] { id := "c3", name := "empty_tool" } 4 =
      ([{ type := .toolExecutionStart, toolName := "empty_tool", toolCallID := "c3" }],
        { role := roleToolResult, toolCallID := "c3", toolName := "empty_tool",
          contentRaw := [.text { text := "(tool returned no output)" }],
          timestamp := 4 },
        false) :=
  ⟨tool_dispatch_non_terminal.1 [] { id := "c1", name := "missing_tool" } 4 rfl,
    tool_dispatch_non_terminal.2.1 [some brokenTool]
      { id := "c2", name := "broken_tool" } 4 brokenTool "boom" rfl rfl,
    tool_dispatch_non_terminal.2.2.1 [some emptyTool]
      { id := "c3", name := "empty_tool" } 4 emptyTool {} rfl rfl rfl⟩

end Agent

/-! ## C4 — round-cap exhaustion -/

namespace Agent

/-- The assistant message a scripted round would deliver, after the
runner's timestamp fill. -/
def roundAssistantMsg (r : RoundOutcome) (now : Int) : Option AssistantMessage :=
  match r with
  | .result _ (.ok m) => some (timestampFill m now)
  | _ => none

/-- The roles of the session log entries, in order. -/
def entryRoles (entries : List SessEntry) : List String :=
  entries.map fun e =>
    match e with
    | .msg m => m.role
    | .assistant a => a.role

/-- The timestamp fill changes no other field. -/
lemma timestampFill_stopReason (m : AssistantMessage) (now : Int) :
    (timestampFill m now).stopReason = m.stopReason := by
  unfold timestampFill; split <;> rfl

/-- The timestamp fill changes no other field. -/
lemma timestampFill_contentRaw (m : AssistantMessage) (now : Int) :
    (timestampFill m now).contentRaw = m.contentRaw := by
  unfold timestampFill; split <;> rfl

/-- A round whose scripted result is a tool-use assistant with at
least one tool call always proceeds to the next round. -/
lemma runRound_toolUse (script : Nat → RoundOutcome) (tools : List (Option AgentTool))
    (now : Int) (round : Nat) (st : AgentState) (trace : List TraceAction)
    (evs : List StreamEvent) (msg : AssistantMessage)
    (hscript : script round = .result evs (.ok msg))
    (hstop : msg.stopReason = .toolUse)
    (hcalls : extractToolCalls msg.contentRaw ≠ []) :
    runRound script tools now round st trace =
      .next
        (dispatchToolCalls tools now (extractToolCalls (timestampFill msg now).contentRaw)
            { st with messages := st.messages ++ [.assistant (timestampFill msg now)] }
            (trace ++ evs.map
                (fun ev => TraceAction.emit
                  { type := mapStreamEventType ev.type, message := .streamEvent ev }) ++
              [.emit { type := .messageEnd, message := .assistantMsg (timestampFill msg now) }])).1
        (dispatchToolCalls tools now (extractToolCalls (timestampFill msg now).contentRaw)
            { st with messages := st.messages ++ [.assistant (timestampFill msg now)] }
            (trace ++ evs.map
                (fun ev => TraceAction.emit
                  { type := mapStreamEventType ev.type, message := .streamEvent ev }) ++
              [.emit { type := .messageEnd, message := .assistantMsg (timestampFill msg now) }])).2
        (timestampFill msg now) := by
  simp only [runRound, hscript]
  rw [if_neg]
  intro hor
  rcases hor with h1 | h1
  · rw [timestampFill_contentRaw] at h1
    rw [List.isEmpty_iff] at h1
    exact hcalls h1
  · rw [timestampFill_stopReason] at h1
    exact h1 hstop

/-- If every scripted round up to the budget returns a tool-use
assistant with at least one tool call, the loop exhausts the budget:
it exits through `roundsExhausted` with the round-cap error and the
final round's assistant message. -/
lemma runLoop_exhausts (script : Nat → RoundOutcome) (tools : List (Option AgentTool))
    (now : Int) :
    ∀ (remaining : Nat) (round : Nat) (last : Option AssistantMessage)
      (st : AgentState) (trace : List TraceAction),
      0 < remaining →
      (∀ i, round ≤ i → i < round + remaining →
        ∃ evs msg, script i = .result evs (.ok msg) ∧ msg.stopReason = .toolUse ∧
          extractToolCalls msg.contentRaw ≠ []) →
      (runLoop script tools now round last st trace remaining).2.2.2.2 = .roundsExhausted ∧
      (runLoop script tools now round last st trace remaining).2.2.2.1 =
        some "max tool rounds reached without final assistant response" ∧
      (runLoop script tools now round last st trace remaining).2.2.1 =
        roundAssistantMsg (script (round + remaining - 1)) now := by
  intro remaining
  induction remaining with
  | zero => intro round last st trace h; omega
  | succ rem ih =>
    intro round last st trace _ hall
    obtain ⟨evs, msg, hscript, hstop, hcalls⟩ := hall round (Nat.le_refl _) (by omega)
    rw [show runLoop script tools now round last st trace (rem + 1) =
        match runRound script tools now round st trace with
        | .exit st' tr a e x => (st', tr, a, e, x)
        | .next st' tr result =>
          runLoop script tools now (round + 1) (some result) st' tr rem from rfl]
    rw [runRound_toolUse script tools now round st trace evs msg hscript hstop hcalls]
    rcases Nat.eq_zero_or_pos rem with hrem | hrem
    · subst hrem
      refine ⟨rfl, rfl, ?_⟩
      simp only [runLoop, roundAssistantMsg]
      rw [show round + 1 - 1 = round from rfl, hscript]
    · have hall' : ∀ i, round + 1 ≤ i → i < round + 1 + rem →
          ∃ evs msg, script i = .result evs (.ok msg) ∧ msg.stopReason = .toolUse ∧
            extractToolCalls msg.contentRaw ≠ [] :=
        fun i hi1 hi2 => hall i (by omega) (by omega)
      refine ⟨?_, ?_, ?_⟩
      · exact (ih (round + 1) (some (timestampFill msg now)) _ _ hrem hall').1
      · exact (ih (round + 1) (some (timestampFill msg now)) _ _ hrem hall').2.1
      · rw [show round + (rem + 1) - 1 = round + 1 + rem - 1 from by omega]
        exact (ih (round + 1) (some (timestampFill msg now)) _ _ hrem hall').2.2

/-- C4: when every round ends with a tool-use assistant message, the
runner stops after `max_tool_rounds` rounds and returns the most
recent assistant message together with the round-cap error; with
`max_tool_rounds = 2` and one tool call per round the log holds five
entries: user, 2 × (assistant, tool_result). -/
theorem runner_round_cap :
    (∀ (st : AgentState) (options : RunnerOptions) (script : Nat → RoundOutcome)
        (now : Int) (m : Model),
      options.hasClient = true →
      st.model = some m →
      (∀ i, i < (if options.maxToolRounds ≤ 0 then 8 else options.maxToolRounds.toNat) →
        ∃ evs msg, script i = .result evs (.ok msg) ∧ msg.stopReason = .toolUse ∧
          extractToolCalls msg.contentRaw ≠ []) →
      (runTurn st options script now).exit = .roundsExhausted ∧
      (runTurn st options script now).errMsg =
        some "max tool rounds reached without final assistant response" ∧
      (runTurn st options script now).assistant =
        roundAssistantMsg
          (script ((if options.maxToolRounds ≤ 0 then 8 else options.maxToolRounds.toNat) - 1))
          now) ∧
    (let run := runTurn (scenarioState [some loopTool]) { maxToolRounds := 2 }
        (fun _ => .result [] (.ok (asstToolCallMsg "loop_tool"))) 9
     run.errMsg = some "max tool rounds reached without final assistant response" ∧
       run.assistant = some (asstToolCallMsg "loop_tool") ∧
       run.state.messages.length = 5 ∧
       entryRoles run.state.messages =
         ["user", "assistant", "toolResult", "assistant", "toolResult"]) := by
  constructor
  · intro st options script now m hclient hmodel hall
    have hpos : 0 < (if options.maxToolRounds ≤ 0 then 8 else options.maxToolRounds.toNat) := by
      split
      · omega
      · omega
    have hrun : runTurn st options script now =
        { state :=
            { (runLoop script
                (if options.tools.isEmpty then st.tools else options.tools) now 0 none
                { st with isStreaming := true }
                [.emit { type := .turnStart }, .setStreaming true]
                (if options.maxToolRounds ≤ 0 then 8 else options.maxToolRounds.toNat)).1 with
              isStreaming := false }
          trace :=
            (runLoop script
                (if options.tools.isEmpty then st.tools else options.tools) now 0 none
                { st with isStreaming := true }
                [.emit { type := .turnStart }, .setStreaming true]
                (if options.maxToolRounds ≤ 0 then 8 else options.maxToolRounds.toNat)).2.1 ++
              [.setStreaming false]
          assistant :=
            (runLoop script
                (if options.tools.isEmpty then st.tools else options.tools) now 0 none
                { st with isStreaming := true }
                [.emit { type := .turnStart }, .setStreaming true]
                (if options.maxToolRounds ≤ 0 then 8 else options.maxToolRounds.toNat)).2.2.1
          errMsg :=
            (runLoop script
                (if options.tools.isEmpty then st.tools else options.tools) now 0 none
                { st with isStreaming := true }
                [.emit { type := .turnStart }, .setStreaming true]
                (if options.maxToolRounds ≤ 0 then 8 else options.maxToolRounds.toNat)).2.2.2.1
          exit :=
            (runLoop script
                (if options.tools.isEmpty then st.tools else options.tools) now 0 none
                { st with isStreaming := true }
                [.emit { type := .turnStart }, .setStreaming true]
                (if options.maxToolRounds ≤ 0 then 8 else options.maxToolRounds.toNat)).2.2.2.2 } := by
      simp only [runTurn, hclient, hmodel, Bool.not_true]
      rfl
    have hmain := runLoop_exhausts script
      (if options.tools.isEmpty then st.tools else options.tools) now
      (if options.maxToolRounds ≤ 0 then 8 else options.maxToolRounds.toNat) 0 none
      { st with isStreaming := true }
      [.emit { type := .turnStart }, .setStreaming true]
      hpos (fun i h1 h2 => hall i (by omega))
    simp only [Nat.zero_add] at hmain
    rw [hrun]
    exact ⟨hmain.1, hmain.2.1, hmain.2.2⟩
  · refine ⟨by decide, rfl, by decide, by decide⟩

/-- Witness for C4's universal part at a concrete all-tool-use run. -/
theorem runner_round_cap_witness :
    (runTurn (scenarioState [some loopTool]) { maxToolRounds := 2 }
        (fun _ => .result [] (.ok (asstToolCallMsg "loop_tool"))) 9).exit =
      .roundsExhausted :=
  (runner_round_cap.1 (scenarioState [some loopTool]) { maxToolRounds := 2 }
      (fun _ => .result [] (.ok (asstToolCallMsg "loop_tool"))) 9
      { provider := "mock", id := "test-model" } rfl rfl
      (fun _ _ =>
        ⟨[], asstToolCallMsg "loop_tool", rfl, rfl, fun h => List.noConfusion h⟩)).1

end Agent

/-! ## C2 — `is_streaming` vs `turn_start`/`turn_end` -/

namespace Agent

/-- Number of emitted events of the given type in a trace. -/
def countEmits (t : AgentEventType) (tr : List TraceAction) : Nat :=
  tr.countP fun a =>
    match a with
    | .emit e => e.type == t
    | _ => false

/-- Number of `is_streaming` writes of the given value in a trace. -/
def countSetStreaming (b : Bool) (tr : List TraceAction) : Nat :=
  tr.countP fun a =>
    match a with
    | .setStreaming b' => b' == b
    | _ => false

/-- Any `is_streaming` write. -/
def isSetStreaming : TraceAction → Bool
  | .setStreaming _ => true
  | _ => false

/-- The necessary condition of C2 as stated: whenever `turn_start` was
emitted, a `turn_end` closing the interval must also have been
emitted. -/
def turnEndClosesTurnStart (tr : List TraceAction) : Prop :=
  0 < countEmits .turnStart tr → 0 < countEmits .turnEnd tr

/-- The mapped stream events are never `turn_start`/`turn_end`. -/
lemma mapStreamEventType_ne_turn (t : StreamEventType) :
    mapStreamEventType t ≠ .turnStart ∧ mapStreamEventType t ≠ .turnEnd := by
  cases t <;> exact ⟨fun h => AgentEventType.noConfusion h, fun h => AgentEventType.noConfusion h⟩

/-- `executeToolCall` always emits exactly the `tool_execution_start`
event. -/
lemma executeToolCall_events (tools : List (Option AgentTool)) (call : ToolCallContent)
    (now : Int) :
    (executeToolCall tools call now).1 =
      [{ type := .toolExecutionStart, toolName := call.name, toolCallID := call.id }] := by
  rcases h1 : findTool tools call.name with _ | tool
  · simp [executeToolCall, h1]
  · rcases h2 : tool.exec call.id call.arguments with e | result
    · simp [executeToolCall, h1, h2]
    · simp [executeToolCall, h1, h2]

/-- The trace suffix appended by tool dispatch contains only
`tool_execution_start`/`tool_execution_end` emissions. -/
lemma dispatchToolCalls_trace (tools : List (Option AgentTool)) (now : Int) :
    ∀ (calls : List ToolCallContent) (st : AgentState) (trace : List TraceAction),
      ∃ suffix,
        (dispatchToolCalls tools now calls st trace).2 = trace ++ suffix ∧
        suffix.countP isSetStreaming = 0 ∧
        countEmits .turnStart suffix = 0 ∧
        countEmits .turnEnd suffix = 0 := by
  intro calls
  induction calls with
  | nil =>
    intro st trace
    exact ⟨[], by simp [dispatchToolCalls], rfl, rfl, rfl⟩
  | cons call rest ih =>
    intro st trace
    have hstep : dispatchToolCalls tools now (call :: rest) st trace =
        dispatchToolCalls tools now rest
          { st with messages := st.messages ++ [.msg (executeToolCall tools call now).2.1] }
          (trace ++ (executeToolCall tools call now).1.map TraceAction.emit ++
            [.emit { type := .toolExecutionEnd, toolName := call.name,
                     toolCallID := call.id, isError := (executeToolCall tools call now).2.2,
                     message := .message (executeToolCall tools call now).2.1 }]) := by
      simp only [dispatchToolCalls, List.foldl_cons]
    rw [hstep]
    obtain ⟨suffix, hsfx, hset, hts, hte⟩ := ih _ _
    refine ⟨(executeToolCall tools call now).1.map TraceAction.emit ++
        [.emit { type := .toolExecutionEnd, toolName := call.name,
                 toolCallID := call.id, isError := (executeToolCall tools call now).2.2,
                 message := .message (executeToolCall tools call now).2.1 }] ++ suffix,
      ?_, ?_, ?_, ?_⟩
    · rw [hsfx]; simp [List.append_assoc]
    · rw [executeToolCall_events]
      simp [List.countP_append, List.countP_cons, hset, isSetStreaming]
    · rw [executeToolCall_events]
      simp only [countEmits, List.countP_append] at hts ⊢
      simp [hts, List.countP_cons]
    · rw [executeToolCall_events]
      simp only [countEmits, List.countP_append] at hte ⊢
      simp [hte, List.countP_cons]

/-- Shape of the trace suffix the round loop appends: no streaming
writes, no further `turn_start`, and `turn_end` exactly on the
`finished`/`roundsExhausted` exits; the exit site is one of the four
loop exits. -/
lemma runLoop_trace_shape (script : Nat → RoundOutcome) (tools : List (Option AgentTool))
    (now : Int) :
    ∀ (remaining round : Nat) (last : Option AssistantMessage)
      (st : AgentState) (trace : List TraceAction),
      ∃ suffix,
        (runLoop script tools now round last st trace remaining).2.1 = trace ++ suffix ∧
        suffix.countP isSetStreaming = 0 ∧
        countEmits .turnStart suffix = 0 ∧
        countEmits .turnEnd suffix =
          (if (runLoop script tools now round last st trace remaining).2.2.2.2 = .finished ∨
              (runLoop script tools now round last st trace remaining).2.2.2.2 = .roundsExhausted
            then 1 else 0) ∧
        ((runLoop script tools now round last st trace remaining).2.2.2.2 = .streamCallErr ∨
          (runLoop script tools now round last st trace remaining).2.2.2.2 = .resultReadErr ∨
          (runLoop script tools now round last st trace remaining).2.2.2.2 = .finished ∨
          (runLoop script tools now round last st trace remaining).2.2.2.2 = .roundsExhausted) := by
  intro remaining
  induction remaining with
  | zero =>
    intro round last st trace
    cases last with
    | some la => exact ⟨[.emit { type := .turnEnd }], rfl, rfl, rfl, rfl, by simp [runLoop]⟩
    | none => exact ⟨[.emit { type := .turnEnd }], rfl, rfl, rfl, rfl, by simp [runLoop]⟩
  | succ rem ih =>
    intro round last st trace
    rw [show runLoop script tools now round last st trace (rem + 1) =
        match runRound script tools now round st trace with
        | .exit st' tr a e x => (st', tr, a, e, x)
        | .next st' tr result =>
          runLoop script tools now (round + 1) (some result) st' tr rem from rfl]
    unfold runRound
    cases hscript : script round with
    | streamErr e =>
      exact ⟨[], by simp, rfl, rfl, rfl, Or.inl rfl⟩
    | result events res =>
      have hevents : ∀ (evs : List StreamEvent),
          (evs.map (fun ev => TraceAction.emit
            { type := mapStreamEventType ev.type, message := .streamEvent ev })).countP
              isSetStreaming = 0 ∧
          countEmits .turnStart (evs.map (fun ev => TraceAction.emit
            { type := mapStreamEventType ev.type, message := .streamEvent ev })) = 0 ∧
          countEmits .turnEnd (evs.map (fun ev => TraceAction.emit
            { type := mapStreamEventType ev.type, message := .streamEvent ev })) = 0 := by
        intro evs
        refine ⟨?_, ?_, ?_⟩
        · rw [List.countP_map]
          refine List.countP_eq_zero.mpr (fun ev _ => ?_)
          simp [Function.comp, isSetStreaming]
        · simp only [countEmits]
          rw [List.countP_map]
          refine List.countP_eq_zero.mpr (fun ev _ => ?_)
          simp only [Function.comp, beq_iff_eq]
          exact (mapStreamEventType_ne_turn ev.type).1
        · simp only [countEmits]
          rw [List.countP_map]
          refine List.countP_eq_zero.mpr (fun ev _ => ?_)
          simp only [Function.comp, beq_iff_eq]
          exact (mapStreamEventType_ne_turn ev.type).2
      cases res with
      | error e =>
        refine ⟨events.map (fun ev => TraceAction.emit
            { type := mapStreamEventType ev.type, message := .streamEvent ev }),
          by simp, (hevents events).1, (hevents events).2.1, ?_, Or.inr (Or.inl rfl)⟩
        simpa using (hevents events).2.2
      | ok result =>
        dsimp only
        by_cases hcond : (extractToolCalls (timestampFill result now).contentRaw).isEmpty = true ∨
            ¬(timestampFill result now).stopReason = .toolUse
        · rw [if_pos hcond]
          refine ⟨events.map (fun ev => TraceAction.emit
              { type := mapStreamEventType ev.type, message := .streamEvent ev }) ++
              [.emit { type := .messageEnd, message := .assistantMsg (timestampFill result now) }] ++
              [.emit { type := .turnEnd }],
            by simp, ?_, ?_, ?_, Or.inr (Or.inr (Or.inl rfl))⟩
          · simp only [List.countP_append, (hevents events).1]
            rfl
          · simp only [countEmits, List.countP_append] at *
            simp [(hevents events).2.1, countEmits]
          · simp only [countEmits, List.countP_append] at *
            have h0 := (hevents events).2.2
            simp only [countEmits] at h0
            simp [h0]
        · rw [if_neg hcond]
          obtain ⟨dsfx, hd1, hd2, hd3, hd4⟩ := dispatchToolCalls_trace tools now
            (extractToolCalls (timestampFill result now).contentRaw)
            { st with messages := st.messages ++ [.assistant (timestampFill result now)] }
            (trace ++ events.map (fun ev => TraceAction.emit
                { type := mapStreamEventType ev.type, message := .streamEvent ev }) ++
              [.emit { type := .messageEnd, message := .assistantMsg (timestampFill result now) }])
          obtain ⟨lsfx, hl1, hl2, hl3, hl4, hl5⟩ := ih (round + 1) (some (timestampFill result now))
            (dispatchToolCalls tools now (extractToolCalls (timestampFill result now).contentRaw)
              { st with messages := st.messages ++ [.assistant (timestampFill result now)] }
              (trace ++ events.map (fun ev => TraceAction.emit
                  { type := mapStreamEventType ev.type, message := .streamEvent ev }) ++
                [.emit { type := .messageEnd, message := .assistantMsg (timestampFill result now) }])).1
            (dispatchToolCalls tools now (extractToolCalls (timestampFill result now).contentRaw)
              { st with messages := st.messages ++ [.assistant (timestampFill result now)] }
              (trace ++ events.map (fun ev => TraceAction.emit
                  { type := mapStreamEventType ev.type, message := .streamEvent ev }) ++
                [.emit { type := .messageEnd, message := .assistantMsg (timestampFill result now) }])).2
          refine ⟨events.map (fun ev => TraceAction.emit
              { type := mapStreamEventType ev.type, message := .streamEvent ev }) ++
              [.emit { type := .messageEnd, message := .assistantMsg (timestampFill result now) }] ++
              dsfx ++ lsfx, ?_, ?_, ?_, ?_, hl5⟩
          · rw [hl1, hd1]
            simp [List.append_assoc]
          · simp only [List.countP_append, (hevents events).1, hd2, hl2]
            rfl
          · simp only [countEmits, List.countP_append] at *
            simp [(hevents events).2.1, hd3, hl3, countEmits]
          · simp only [countEmits, List.countP_append] at *
            have h0 := (hevents events).2.2
            simp only [countEmits] at h0
            simp [h0, hd4, hl4]

/-- A zero count of streaming writes specialises to either value. -/
lemma countSetStreaming_eq_zero {sfx : List TraceAction}
    (h : sfx.countP isSetStreaming = 0) (b : Bool) :
    countSetStreaming b sfx = 0 := by
  refine List.countP_eq_zero.mpr (fun a ha => ?_)
  have := List.countP_eq_zero.mp h a ha
  cases a with
  | setStreaming b' => exact absurd this (by simp [isSetStreaming])
  | emit e => simp

/-- C2 counterexample: when the adapter's stream call fails, the
runner emits `turn_start`, sets `is_streaming`, and returns — clearing
the flag without ever emitting `turn_end`, so the flag's interval is
not the `turn_start`…`turn_end` interval on this exit path. -/
theorem runner_streaming_error_path_counterexample :
    (runTurn { model := some { id := "m" } } {} (fun _ => .streamErr "connection reset") 7).trace =
      [.emit { type := .turnStart }, .setStreaming true, .setStreaming false] ∧
    countEmits .turnStart
      (runTurn { model := some { id := "m" } } {} (fun _ => .streamErr "connection reset") 7).trace = 1 ∧
    countEmits .turnEnd
      (runTurn { model := some { id := "m" } } {} (fun _ => .streamErr "connection reset") 7).trace = 0 ∧
    countSetStreaming false
      (runTurn { model := some { id := "m" } } {} (fun _ => .streamErr "connection reset") 7).trace = 1 ∧
    (runTurn { model := some { id := "m" } } {} (fun _ => .streamErr "connection reset") 7).errMsg =
      some "connection reset" ∧
    ¬ turnEndClosesTurnStart
      (runTurn { model := some { id := "m" } } {} (fun _ => .streamErr "connection reset") 7).trace := by
  refine ⟨rfl, by decide, by decide, by decide, rfl, ?_⟩
  intro h
  exact absurd (h (by decide)) (by decide)

/-- C2 (amended): on every post-validation run, `is_streaming` is set
true immediately after the single `turn_start` emission and cleared
exactly once, as the very last action, on every exit path; `turn_end`
is emitted exactly once on the normal and round-cap exits and not at
all when the stream call or the result read fails. -/
theorem runner_streaming_flag_amended
    (st : AgentState) (options : RunnerOptions) (script : Nat → RoundOutcome)
    (now : Int) (m : Model)
    (hclient : options.hasClient = true) (hmodel : st.model = some m) :
    (runTurn st options script now).state.isStreaming = false ∧
    (runTurn st options script now).trace.head? = some (.emit { type := .turnStart }) ∧
    (runTurn st options script now).trace[1]? = some (.setStreaming true) ∧
    (runTurn st options script now).trace.getLast? = some (.setStreaming false) ∧
    countSetStreaming true (runTurn st options script now).trace = 1 ∧
    countSetStreaming false (runTurn st options script now).trace = 1 ∧
    countEmits .turnStart (runTurn st options script now).trace = 1 ∧
    (countEmits .turnEnd (runTurn st options script now).trace =
      if (runTurn st options script now).exit = .finished ∨
          (runTurn st options script now).exit = .roundsExhausted then 1 else 0) ∧
    ((runTurn st options script now).exit = .streamCallErr ∨
      (runTurn st options script now).exit = .resultReadErr ∨
      (runTurn st options script now).exit = .finished ∨
      (runTurn st options script now).exit = .roundsExhausted) := by
  have hrun : runTurn st options script now =
      { state :=
          { (runLoop script
              (if options.tools.isEmpty then st.tools else options.tools) now 0 none
              { st with isStreaming := true }
              [.emit { type := .turnStart }, .setStreaming true]
              (if options.maxToolRounds ≤ 0 then 8 else options.maxToolRounds.toNat)).1 with
            isStreaming := false }
        trace :=
          (runLoop script
              (if options.tools.isEmpty then st.tools else options.tools) now 0 none
              { st with isStreaming := true }
              [.emit { type := .turnStart }, .setStreaming true]
              (if options.maxToolRounds ≤ 0 then 8 else options.maxToolRounds.toNat)).2.1 ++
            [.setStreaming false]
        assistant :=
          (runLoop script
              (if options.tools.isEmpty then st.tools else options.tools) now 0 none
              { st with isStreaming := true }
              [.emit { type := .turnStart }, .setStreaming true]
              (if options.maxToolRounds ≤ 0 then 8 else options.maxToolRounds.toNat)).2.2.1
        errMsg :=
          (runLoop script
              (if options.tools.isEmpty then st.tools else options.tools) now 0 none
              { st with isStreaming := true }
              [.emit { type := .turnStart }, .setStreaming true]
              (if options.maxToolRounds ≤ 0 then 8 else options.maxToolRounds.toNat)).2.2.2.1
        exit :=
          (runLoop script
              (if options.tools.isEmpty then st.tools else options.tools) now 0 none
              { st with isStreaming := true }
              [.emit { type := .turnStart }, .setStreaming true]
              (if options.maxToolRounds ≤ 0 then 8 else options.maxToolRounds.toNat)).2.2.2.2 } := by
    simp only [runTurn, hclient, hmodel, Bool.not_true]
    rfl
  obtain ⟨sfx, hs1, hs2, hs3, hs4, hs5⟩ := runLoop_trace_shape script
    (if options.tools.isEmpty then st.tools else options.tools) now
    (if options.maxToolRounds ≤ 0 then 8 else options.maxToolRounds.toNat) 0 none
    { st with isStreaming := true }
    [.emit { type := .turnStart }, .setStreaming true]
  rw [hrun]
  dsimp only
  rw [hs1]
  have hcons : ([TraceAction.emit { type := .turnStart }, TraceAction.setStreaming true] ++ sfx) ++
      [TraceAction.setStreaming false] =
      TraceAction.emit { type := .turnStart } ::
        TraceAction.setStreaming true :: (sfx ++ [TraceAction.setStreaming false]) := by
    simp
  rw [hcons]
  refine ⟨rfl, rfl, by simp, ?_, ?_, ?_, ?_, ?_, hs5⟩
  · rw [show (TraceAction.emit { type := .turnStart } ::
        TraceAction.setStreaming true :: (sfx ++ [TraceAction.setStreaming false])).getLast? =
        (sfx ++ [TraceAction.setStreaming false]).getLast? from by
      rw [List.getLast?_cons_cons]
      cases sfx <;> simp [List.getLast?_cons_cons]]
    exact List.getLast?_concat _
  · simp only [countSetStreaming, List.countP_cons, List.countP_append]
    have := countSetStreaming_eq_zero hs2 true
    simp only [countSetStreaming] at this
    simp [this, isSetStreaming]
    intro a ha
    have hz := List.countP_eq_zero.mp hs2 a ha
    cases a with
    | setStreaming b' => exact absurd hz (by simp [isSetStreaming])
    | emit e => rfl
  · simp only [countSetStreaming, List.countP_cons, List.countP_append]
    have := countSetStreaming_eq_zero hs2 false
    simp only [countSetStreaming] at this
    simp [this]
    intro a ha
    have hz := List.countP_eq_zero.mp hs2 a ha
    cases a with
    | setStreaming b' => exact absurd hz (by simp [isSetStreaming])
    | emit e => rfl
  · simp only [countEmits, List.countP_cons, List.countP_append] at hs3 ⊢
    simp [hs3]
  · simp only [countEmits, List.countP_cons, List.countP_append] at hs4 ⊢
    simp [hs4]

/-- Witness for C2's amended statement on a concrete successful run. -/
theorem runner_streaming_flag_amended_witness :
    (runTurn (scenarioState []) {} (fun _ => .result [] (.ok asstDoneMsg)) 9).trace.getLast? =
      some (.setStreaming false) :=
  (runner_streaming_flag_amended (scenarioState []) {}
      (fun _ => .result [] (.ok asstDoneMsg)) 9 { provider := "mock", id := "test-model" }
      rfl rfl).2.2.2.1

end Agent

/-! ## C1 — stop reason vs tool-call parts -/

namespace Provider

/-- Whether a content list holds at least one tool-call part. -/
def hasToolCallPart (content : List RawPart) : Bool :=
  content.any fun p =>
    match p with
    | .toolCall _ => true
    | _ => false

/-- The claimed invariant on a finalized assistant message:
`tool_use` implies a tool-call part is present, `stop`/`length` imply
none is. -/
def assistantToolUseInvariant (msg : AssistantMessage) : Prop :=
  (msg.stopReason = .toolUse → hasToolCallPart msg.contentRaw = true) ∧
  ((msg.stopReason = .stop ∨ msg.stopReason = .length) →
    hasToolCallPart msg.contentRaw = false)

/-- Folding the responses-adapter aggregation over a list of decoded
SSE events. -/
def chatGPTApplyEvents (a : ChatGPTAggregation)
    (events : List ChatGPTResponsesSSEEvent) : ChatGPTAggregation :=
  events.foldl (fun acc e => (applyEvent acc e).1) a

/-- `updateFromResponse` touches only the model id and the usage. -/
lemma updateFromResponse_preserves (a : ChatGPTAggregation)
    (response : List (String × Json)) :
    (updateFromResponse a response).stopReason = a.stopReason ∧
    (updateFromResponse a response).toolCalls = a.toolCalls := by
  unfold updateFromResponse
  split
  · exact ⟨rfl, rfl⟩
  · rcases getStringFieldOk response "model" with _ | modelID <;>
      rcases getObjField response "usage" with _ | usageRaw <;>
      dsimp only <;>
      first
        | exact ⟨rfl, rfl⟩
        | (split <;> exact ⟨rfl, rfl⟩)

/-- `handleOutputItemDone` preserves the aggregation invariant that a
`tool_use` stop reason comes with at least one accumulated call. -/
lemma handleOutputItemDone_stop_inv (a : ChatGPTAggregation)
    (item : List (String × Json))
    (h : a.stopReason = .toolUse → a.toolCalls ≠ []) :
    (handleOutputItemDone a item).1.stopReason = .toolUse →
    (handleOutputItemDone a item).1.toolCalls ≠ [] := by
  rcases hres : handleOutputItemDone a item with ⟨a2, evs⟩
  dsimp only
  unfold handleOutputItemDone at hres
  split at hres
  · cases hres; exact h
  · split at hres
    · cases hres; exact h
    · dsimp only at hres
      split at hres <;>
        first
          | (cases hres; exact h)
          | (cases hres; intro _; simp)
          | (split at hres <;>
              first
                | (cases hres; exact h)
                | (cases hres; intro _; simp))

/-- One event preserves the aggregation invariant that a `tool_use`
stop reason comes with at least one accumulated call. -/
lemma applyEvent_stop_inv (a : ChatGPTAggregation) (e : ChatGPTResponsesSSEEvent)
    (h : a.stopReason = .toolUse → a.toolCalls ≠ []) :
    (applyEvent a e).1.stopReason = .toolUse → (applyEvent a e).1.toolCalls ≠ [] := by
  unfold applyEvent
  split
  · split
    · exact h
    · exact h
  · split
    · split
      · exact h
      · exact h
    · split
      · exact handleOutputItemDone_stop_inv a e.item h
      · split
        · exact h
        · split
          · intro hsr
            have hp := updateFromResponse_preserves { a with completed := true } e.response
            rw [hp.2]
            exact h (by rw [← hp.1]; exact hsr)
          · exact h

/-- The aggregation invariant holds for every reachable responses
aggregation. -/
lemma chatGPTApplyEvents_stop_inv (events : List ChatGPTResponsesSSEEvent) :
    ∀ (a : ChatGPTAggregation), (a.stopReason = .toolUse → a.toolCalls ≠ []) →
      (chatGPTApplyEvents a events).stopReason = .toolUse →
      (chatGPTApplyEvents a events).toolCalls ≠ [] := by
  induction events with
  | nil => intro a h; exact h
  | cons e rest ih =>
    intro a h
    exact ih (applyEvent a e).1 (applyEvent_stop_inv a e h)

/-- A built content list has a tool-call part iff the call list is
non-empty. -/
lemma hasToolCallPart_build (text : String) (calls : List ToolCallContent) :
    hasToolCallPart
        ((if trimSpace text ≠ "" then [RawPart.text { text := trimSpace text }] else []) ++
          calls.map RawPart.toolCall) =
      !calls.isEmpty := by
  unfold hasToolCallPart
  cases calls with
  | nil => split <;> simp
  | cons c cs => split <;> simp

/-- A responses aggregation satisfying the internal invariant builds
an assistant message satisfying the claimed invariant. -/
lemma chatGPTBuildAssistant_invariant (a : ChatGPTAggregation) (now : Int)
    (hinv : a.stopReason = .toolUse → a.toolCalls ≠ []) :
    assistantToolUseInvariant (chatGPTBuildAssistant a now) := by
  unfold assistantToolUseInvariant chatGPTBuildAssistant
  dsimp only
  rw [hasToolCallPart_build]
  cases hc : a.toolCalls with
  | nil =>
    simp only [hc, List.isEmpty_nil, Bool.not_true, Bool.false_eq_true, if_false]
    constructor
    · intro hsr
      exact absurd hc (hinv hsr)
    · intro _
      trivial
  | cons c cs =>
    simp only [hc, List.isEmpty_cons, Bool.not_false, if_true]
    constructor
    · intro _
      trivial
    · intro hor
      rcases hor with h | h <;> exact StopReason.noConfusion h

/-- C1 (amended): every assistant message finalized by the
chatgpt-responses adapter satisfies the stop-reason/tool-call
invariant; for the chat-completions adapter the invariant holds
provided the aggregated finish reason is consistent with the
accumulated tool-call deltas (`tool_use` iff at least one call was
accumulated). -/
theorem adapter_stop_reason_invariant :
    (∀ (events : List ChatGPTResponsesSSEEvent) (m : Model) (now : Int),
      assistantToolUseInvariant
        (chatGPTBuildAssistant (chatGPTApplyEvents { requestModel := m } events) now)) ∧
    (∀ (a : OpenAIAggregation) (now : Int),
      (a.stopReason = .toolUse ↔ finalizeToolCalls a ≠ []) →
      assistantToolUseInvariant (buildAssistant a (finalizeToolCalls a) now)) := by
  constructor
  · intro events m now
    exact chatGPTBuildAssistant_invariant _ now
      (chatGPTApplyEvents_stop_inv events { requestModel := m } (fun h => by simp at h))
  · intro a now hiff
    unfold assistantToolUseInvariant buildAssistant
    dsimp only
    rw [hasToolCallPart_build]
    constructor
    · intro hsr
      have hne := hiff.mp hsr
      cases hc : finalizeToolCalls a with
      | nil => exact absurd hc hne
      | cons c cs => rfl
    · intro hor
      have hnsr : ¬a.stopReason = .toolUse := by
        rcases hor with h | h <;> · rw [h]; exact fun hh => StopReason.noConfusion hh
      have hnil : finalizeToolCalls a = [] := by
        by_contra hne
        exact hnsr (hiff.mpr hne)
      rw [hnil]
      rfl

/-- Witness for C1's amended statement at concrete inputs. -/
theorem adapter_stop_reason_invariant_witness :
    assistantToolUseInvariant
      (chatGPTBuildAssistant (chatGPTApplyEvents { requestModel := { id := "m" } } []) 7) ∧
    assistantToolUseInvariant
      (buildAssistant (newOpenAIAggregation { id := "m" })
        (finalizeToolCalls (newOpenAIAggregation { id := "m" })) 7) :=
  ⟨adapter_stop_reason_invariant.1 [] { id := "m" } 7,
    adapter_stop_reason_invariant.2 (newOpenAIAggregation { id := "m" }) 7
      (by constructor
          · intro h; exact absurd h (by decide)
          · intro h; exact absurd rfl h)⟩

/-- A chat-completions SSE chunk carrying one tool-call delta together
with the inconsistent finish reason `stop`. -/
def c1CounterexampleLine : String :=
  "data: \x7b\"choices\":[\x7b\"delta\":\x7b\"tool_calls\":[\x7b\"index\":0,\"id\":\"call_1\",\"function\":\x7b\"name\":\"f\",\"arguments\":\"\x7b\x7d\"\x7d\x7d]\x7d,\"finish_reason\":\"stop\"\x7d]\x7d"

/-- The assistant message the chat-completions adapter finalizes for
`c1CounterexampleLine`. -/
def c1CounterexampleMsg : AssistantMessage :=
  { role := "assistant"
    contentRaw := [.toolCall { id := "call_1", name := "f", arguments := [] }]
    provider := "openai"
    model := "m"
    stopReason := .stop
    timestamp := 7 }

set_option maxRecDepth 8192 in
/-- C1 counterexample: fed a stream whose only chunk carries a
tool-call delta but reports `finish_reason: "stop"`, the
chat-completions adapter finalizes an assistant message with
`stop_reason = stop` whose content contains a `tool_call` part — so
the claimed invariant fails for this adapter.  (The amended theorem
shows the chatgpt-responses adapter cannot produce this.) -/
theorem adapter_stop_reason_counterexample :
    (openAIConsume [c1CounterexampleLine, "", "data: [DONE]", ""] { id := "m" } none 7).2 =
      .ok c1CounterexampleMsg ∧
    c1CounterexampleMsg.stopReason = .stop ∧
    hasToolCallPart c1CounterexampleMsg.contentRaw = true ∧
    ¬ assistantToolUseInvariant c1CounterexampleMsg := by
  refine ⟨rfl, rfl, rfl, ?_⟩
  intro h
  exact absurd (h.2 (Or.inl rfl)) (by decide)

/-! ## C3 — responses-adapter close/cancel behaviour -/

/-- The SSE lines of the cancellation scenario: two text deltas are
delivered, then the caller's cancellation is observed at the third
frame. -/
def c3ScenarioLines : List String :=
  ["data: \x7b\"type\":\"response.output_text.delta\",\"delta\":\"Par\"\x7d", "",
   "data: \x7b\"type\":\"response.output_text.delta\",\"delta\":\"tial\"\x7d", "",
   "data: \x7b\"type\":\"response.output_text.delta\",\"delta\":\"x\"\x7d", ""]

/-- The partial assistant message finalized in the cancellation
scenario. -/
def c3ScenarioMsg : AssistantMessage :=
  { role := "assistant"
    contentRaw := [.text { text := "Partial" }]
    provider := "chatgpt"
    model := "m"
    stopReason := .stop
    timestamp := 7 }

/-- C3: (i) if the responses stream ends (EOF or `[DONE]`) without a
`completed` marker and nothing was accumulated, the result is the
error `stream closed before response.completed`; (ii) if the context
is cancelled while output has been accumulated but `completed` has
not been seen, the adapter finalizes successfully with provider
`chatgpt`; (iii) concretely, cancelling after the deltas `"Par"`,
`"tial"` yields the assistant message `"Partial"`, provider
`chatgpt`, stop reason `stop`, and no error. -/
theorem responses_close_and_cancel :
    (∀ (st : ChatGPTConsumeState) (now : Int),
      st.agg.completed = false →
      st.agg.hasOutput = false →
      (chatGPTFinish st none now).2 = .err "stream closed before response.completed" ∧
      (chatGPTFinish st (some .sseDone) now).2 =
        .err "stream closed before response.completed") ∧
    (∀ (st : ChatGPTConsumeState) (now : Int),
      st.agg.completed = false →
      st.agg.hasOutput = true →
      (chatGPTFinish st (some .ctxCanceled) now).2 =
        .ok (chatGPTBuildAssistant { st.agg with completed := true } now) ∧
      (chatGPTBuildAssistant { st.agg with completed := true } now).provider = "chatgpt") ∧
    (chatGPTConsume c3ScenarioLines { id := "m" } (some 2) 7).2 = .ok c3ScenarioMsg := by
  refine ⟨?_, ?_, rfl⟩
  · intro st now hcompleted _
    constructor
    · simp [chatGPTFinish, chatGPTFinishTail, chatGPTCompletedCheck, hcompleted]
    · simp [chatGPTFinish, chatGPTFinishTail, chatGPTCompletedCheck, hcompleted]
  · intro st now hcompleted houtput
    constructor
    · simp [chatGPTFinish, chatGPTFinishTail, chatGPTCompletedCheck, hcompleted, houtput]
    · rfl

/-- Witness for C3's quantified parts at concrete states. -/
theorem responses_close_and_cancel_witness :
    (chatGPTFinish { agg := { requestModel := { id := "m" } } } none 7).2 =
      .err "stream closed before response.completed" ∧
    (chatGPTFinish { agg := { requestModel := { id := "m" }, text := "Partial" } }
        (some .ctxCanceled) 7).2 =
      .ok (chatGPTBuildAssistant
        { requestModel := { id := "m" }, text := "Partial", completed := true } 7) :=
  ⟨(responses_close_and_cancel.1 { agg := { requestModel := { id := "m" } } } 7 rfl rfl).1,
    (responses_close_and_cancel.2.1
        { agg := { requestModel := { id := "m" }, text := "Partial" } } 7 rfl rfl).1⟩

/-! ## C8 — SSE framing -/

/-- A trim fixpoint left-trims to itself. -/
lemma trimChars_fix_left {cs : List Char} (h : trimChars cs = cs) :
    cs.dropWhile isSpaceChar = cs := by
  have h1 : (cs.dropWhile isSpaceChar).length ≤ cs.length :=
    (List.dropWhile_suffix isSpaceChar).length_le
  have h2 : (trimChars cs).length ≤ (cs.dropWhile isSpaceChar).length := by
    unfold trimChars
    calc ((cs.dropWhile isSpaceChar).reverse.dropWhile isSpaceChar).reverse.length
        = ((cs.dropWhile isSpaceChar).reverse.dropWhile isSpaceChar).length := by
          rw [List.length_reverse]
      _ ≤ (cs.dropWhile isSpaceChar).reverse.length :=
          (List.dropWhile_suffix isSpaceChar).length_le
      _ = (cs.dropWhile isSpaceChar).length := by rw [List.length_reverse]
  have h3 : (trimChars cs).length = cs.length := by rw [h]
  exact (List.dropWhile_suffix isSpaceChar).eq_of_length (by omega)

/-- A trim fixpoint right-trims to itself (stated on the reverse). -/
lemma trimChars_fix_right {cs : List Char} (h : trimChars cs = cs) :
    cs.reverse.dropWhile isSpaceChar = cs.reverse := by
  have hl := trimChars_fix_left h
  have h2 : trimChars cs = (cs.reverse.dropWhile isSpaceChar).reverse := by
    unfold trimChars
    rw [hl]
  rw [h] at h2
  have := congrArg List.reverse h2
  simpa using this.symm

/-- The head of a dropWhile fixpoint fails the predicate. -/
lemma dropWhile_fix_head {p : Char → Bool} {c : Char} {cs : List Char}
    (h : (c :: cs).dropWhile p = c :: cs) : p c = false := by
  rw [List.dropWhile_cons] at h
  by_cases hp : p c
  · exfalso
    rw [if_pos hp] at h
    have hle := (List.dropWhile_suffix p (l := cs)).length_le
    have h2 := congrArg List.length h
    simp at h2
    omega
  · simpa using hp

/-- A non-empty string with no surrounding whitespace keeps the
`data: ` marker intact under trimming. -/
lemma trimSpace_data_line (d : String) (hfix : trimSpace d = d) (hne : d ≠ "") :
    trimSpace ("data: " ++ d) = "data: " ++ d := by
  have hfixl : trimChars d.data = d.data := congrArg String.data hfix
  have hdne : d.data ≠ [] := fun hnil => hne (by cases d with | mk l => cases hnil; rfl)
  have hrightfix := trimChars_fix_right hfixl
  rcases hr : d.data.reverse with _ | ⟨r, rtail⟩
  · exact absurd (by simpa using congrArg List.reverse hr) hdne
  have hpr : isSpaceChar r = false := by
    rw [hr] at hrightfix
    exact dropWhile_fix_head hrightfix
  have hback : rtail.reverse ++ [r] = d.data := by
    have h2 := congrArg List.reverse hr
    simpa using h2.symm
  show String.mk (trimChars ("data: " ++ d).data) = "data: " ++ d
  rw [show ("data: " ++ d).data = 'd' :: 'a' :: 't' :: 'a' :: ':' :: ' ' :: d.data from rfl]
  unfold trimChars
  rw [List.dropWhile_cons_of_neg (by simp [isSpaceChar])]
  rw [show ('d' :: 'a' :: 't' :: 'a' :: ':' :: ' ' :: d.data).reverse =
      d.data.reverse ++ [' ', ':', 'a', 't', 'a', 'd'] from by simp]
  rw [hr, List.cons_append, List.dropWhile_cons_of_neg (by simp [hpr])]
  rw [show (r :: (rtail ++ [' ', ':', 'a', 't', 'a', 'd'])).reverse =
      'd' :: 'a' :: 't' :: 'a' :: ':' :: ' ' :: d.data from by
    calc (r :: (rtail ++ [' ', ':', 'a', 't', 'a', 'd'])).reverse
        = 'd' :: 'a' :: 't' :: 'a' :: ':' :: ' ' :: (rtail.reverse ++ [r]) := by simp
      _ = 'd' :: 'a' :: 't' :: 'a' :: ':' :: ' ' :: d.data := by rw [hback]]
  rfl

/-- Stripping the `data:` marker and re-trimming recovers the
payload. -/
lemma trimSpace_data_payload (d : String) (hfix : trimSpace d = d) :
    trimSpace (strDrop ("data: " ++ d) 5) = d := by
  have hfixl : trimChars d.data = d.data := congrArg String.data hfix
  have hdrop : (strDrop ("data: " ++ d) 5).data = ' ' :: d.data := rfl
  show String.mk (trimChars (strDrop ("data: " ++ d) 5).data) = d
  rw [hdrop]
  unfold trimChars
  rw [List.dropWhile_cons_of_pos (by simp [isSpaceChar])]
  rw [trimChars_fix_left hfixl, trimChars_fix_right hfixl, List.reverse_reverse]

/-- `consumeSSE` is the payload-level run over the frames: the SSE
consumer delivers to its handler exactly the frames of the line
stream, stopping at the handler's first error. -/
lemma consumeSSEAux_eq_runPayloads {σ E : Type} (onData : σ → String → σ × Option E) :
    ∀ (lines buf : List String) (st : σ),
      consumeSSEAux onData lines buf st = runPayloads onData (sseFramesAux lines buf) st := by
  intro lines
  induction lines with
  | nil =>
    intro buf st
    by_cases hb : buf = []
    · simp [consumeSSEAux, sseFramesAux, hb, runPayloads]
    · simp only [consumeSSEAux, sseFramesAux, hb, if_neg]
      rcases hd : onData st (strJoinSep "\n" buf) with ⟨st', e⟩
      cases e <;> simp [runPayloads, hd]
  | cons line rest ih =>
    intro buf st
    simp only [consumeSSEAux, sseFramesAux]
    by_cases h1 : trimSpace line = ""
    · simp only [h1, if_pos]
      by_cases hb : buf = []
      · simp [hb, ih]
      · simp only [hb, if_neg]
        rcases hd : onData st (strJoinSep "\n" buf) with ⟨st', e⟩
        cases e <;> simp [runPayloads, hd, ih]
    · simp only [h1, if_neg]
      by_cases h2 : strHasPfx ":" (trimSpace line) = true
      · simp [h2, ih]
      · by_cases h3 : strHasPfx "data:" (trimSpace line) = true
        · simp [h2, h3, ih]
        · simp [h2, h3, ih]

/-- A block of `data:` lines accumulates onto the buffer. -/
lemma sseFramesAux_data_block :
    ∀ (ds : List String) (buf rest : List String),
      (∀ d ∈ ds, trimSpace d = d ∧ d ≠ "") →
      sseFramesAux ((ds.map (fun d => "data: " ++ d)) ++ [""] ++ rest) buf =
        sseFramesAux ([""] ++ rest) (buf ++ ds) := by
  intro ds
  induction ds with
  | nil => intro buf rest _; simp
  | cons d ds ih =>
    intro buf rest hall
    obtain ⟨hfix, hne⟩ := hall d (List.mem_cons_self d ds)
    have hline : trimSpace ("data: " ++ d) = "data: " ++ d := trimSpace_data_line d hfix hne
    have hlne : ("data: " ++ d : String) ≠ "" := by
      intro hh
      have := congrArg String.data hh
      rw [show ("data: " ++ d).data = 'd' :: 'a' :: 't' :: 'a' :: ':' :: ' ' :: d.data from rfl]
        at this
      exact List.noConfusion this
    have hcolon : strHasPfx ":" ("data: " ++ d) = false := by
      rw [show strHasPfx ":" ("data: " ++ d) =
          [':'].isPrefixOf ('d' :: 'a' :: 't' :: 'a' :: ':' :: ' ' :: d.data) from rfl]
      simp [List.isPrefixOf]
    have hdata : strHasPfx "data:" ("data: " ++ d) = true := by
      rw [show strHasPfx "data:" ("data: " ++ d) =
          ['d', 'a', 't', 'a', ':'].isPrefixOf
            ('d' :: 'a' :: 't' :: 'a' :: ':' :: ' ' :: d.data) from rfl]
      simp [List.isPrefixOf]
    rw [show ((d :: ds).map (fun d => "data: " ++ d)) ++ [""] ++ rest =
        ("data: " ++ d) :: ((ds.map (fun d => "data: " ++ d)) ++ [""] ++ rest) from by simp]
    rw [show sseFramesAux (("data: " ++ d) ::
          ((ds.map (fun d => "data: " ++ d)) ++ [""] ++ rest)) buf =
        sseFramesAux ((ds.map (fun d => "data: " ++ d)) ++ [""] ++ rest)
          (buf ++ [trimSpace (strDrop (trimSpace ("data: " ++ d)) 5)]) from by
      simp only [sseFramesAux]
      rw [if_neg (by rw [hline]; exact hlne), if_neg (by rw [hline, hcolon]; simp),
        if_pos (by rw [hline]; exact hdata)]]
    rw [hline, trimSpace_data_payload d hfix]
    rw [ih (buf ++ [d]) rest (fun x hx => hall x (List.mem_cons_of_mem d hx))]
    rw [List.append_cons buf d ds]

/-- Comment lines (`:`-prefixed after trimming) never affect the
frames. -/
lemma sseFramesAux_comment (c : String) (hc : strHasPfx ":" (trimSpace c) = true) :
    ∀ (l1 l2 : List String) (buf : List String),
      sseFramesAux (l1 ++ c :: l2) buf = sseFramesAux (l1 ++ l2) buf := by
  have hcne : trimSpace c ≠ "" := by
    intro hh
    rw [hh] at hc
    exact Bool.noConfusion hc
  intro l1
  induction l1 with
  | nil =>
    intro l2 buf
    simp only [List.nil_append, sseFramesAux]
    rw [if_neg hcne, if_pos hc]
  | cons l ls ih =>
    intro l2 buf
    simp only [List.cons_append, sseFramesAux]
    by_cases h1 : trimSpace l = ""
    · simp only [h1, if_pos]
      by_cases hb : buf = []
      · simp [hb, ih]
      · simp [hb, ih]
    · simp only [h1, if_neg]
      by_cases h2 : strHasPfx ":" (trimSpace l) = true
      · simp [h2, ih]
      · by_cases h3 : strHasPfx "data:" (trimSpace l) = true
        · simp [h2, h3, ih]
        · simp [h2, h3, ih]

/-- Early-exit run over concatenated payload lists. -/
lemma runPayloads_append {σ E : Type} (onData : σ → String → σ × Option E) :
    ∀ (ps qs : List String) (st : σ),
      runPayloads onData (ps ++ qs) st =
        match runPayloads onData ps st with
        | (st', none) => runPayloads onData qs st'
        | (st', some e) => (st', some e) := by
  intro ps
  induction ps with
  | nil => intro qs st; simp [runPayloads]
  | cons p ps ih =>
    intro qs st
    simp only [List.cons_append, runPayloads]
    rcases hd : onData st p with ⟨st', e⟩
    cases e <;> simp [ih]

/-- `openAIOnData` never changes the cancellation point. -/
lemma openAIOnData_cancelAfter (st : OpenAIConsumeState) (p : String) :
    (openAIOnData st p).1.cancelAfter = st.cancelAfter := by
  unfold openAIOnData
  dsimp only
  split
  · rfl
  · split
    · rfl
    · rcases hdec : decodeOpenAIChunk p with _ | chunk
      · simp [hdec]
      · simp [hdec]

/-- Nor does a whole payload run. -/
lemma runPayloads_openAI_cancelAfter :
    ∀ (ps : List String) (st : OpenAIConsumeState),
      (runPayloads openAIOnData ps st).1.cancelAfter = st.cancelAfter := by
  intro ps
  induction ps with
  | nil => intro st; rfl
  | cons p ps ih =>
    intro st
    simp only [runPayloads]
    rcases hd : openAIOnData st p with ⟨st', e⟩
    have hca : st'.cancelAfter = st.cancelAfter := by
      have := openAIOnData_cancelAfter st p
      rw [hd] at this
      exact this
    cases e
    · simp only []
      rw [ih st', hca]
    · simpa using hca

/-- Events appended by successful finalization are `tool_call`s and a
`done` — never an `error` event. -/
lemma openAIFinishOk_no_error_events (st : OpenAIConsumeState) (now : Int) :
    (openAIFinishOk st now).1.countP (fun e => e.type == .error) =
      st.events.countP (fun e => e.type == .error) := by
  unfold openAIFinishOk
  simp only [List.countP_append, List.countP_map]
  have h1 : (finalizeToolCalls st.agg).countP
      ((fun (e : StreamEvent) => e.type == StreamEventType.error) ∘ fun call =>
        ({ type := .toolCall, toolName := call.name, toolCallID := call.id,
           arguments := call.arguments } : StreamEvent)) = 0 :=
    List.countP_eq_zero.mpr (fun _ _ => by simp [Function.comp])
  rw [h1]
  simp

/-- C8: (i) the SSE consumer hands its callback exactly the frames of
the line stream, stopping at the first callback error; (ii) a block of
consecutive `data:` lines flushed by a blank line forms one frame
whose payloads are joined by newline; (iii) `:`-prefixed comment lines
never affect the frames; (iv) a `[DONE]` payload terminates the
chat-completions consume loop with `errSSEDone`, after which
finalization proceeds normally (an `ok` result, no error event). -/
theorem sse_framing :
    (∀ {σ E : Type} (onData : σ → String → σ × Option E) (lines : List String) (init : σ),
      consumeSSE onData lines init = runPayloads onData (sseFrames lines) init) ∧
    (∀ (ds rest : List String), ds ≠ [] → (∀ d ∈ ds, trimSpace d = d ∧ d ≠ "") →
      sseFrames ((ds.map (fun d => "data: " ++ d)) ++ [""] ++ rest) =
        strJoinSep "\n" ds :: sseFrames rest) ∧
    (∀ (c : String) (l1 l2 : List String), strHasPfx ":" (trimSpace c) = true →
      sseFrames (l1 ++ c :: l2) = sseFrames (l1 ++ l2)) ∧
    (∀ (ps rest : List String) (st : OpenAIConsumeState) (now : Int),
      st.cancelAfter = none →
      (runPayloads openAIOnData ps st).2 = none →
      ∃ st2,
        runPayloads openAIOnData (ps ++ "[DONE]" :: rest) st = (st2, some .sseDone) ∧
        openAIFinish st2 (some .sseDone) now = openAIFinishOk st2 now ∧
        (openAIFinishOk st2 now).2 =
          .ok (buildAssistant st2.agg (finalizeToolCalls st2.agg) now) ∧
        (openAIFinishOk st2 now).1.countP (fun e => e.type == .error) =
          st2.events.countP (fun e => e.type == .error)) := by
  refine ⟨?_, ?_, ?_, ?_⟩
  · intro σ E onData lines init
    exact consumeSSEAux_eq_runPayloads onData lines [] init
  · intro ds rest hne hall
    rw [sseFrames, sseFramesAux_data_block ds [] rest hall]
    rw [show ([""] ++ rest : List String) = "" :: rest from rfl]
    simp only [List.nil_append, sseFramesAux]
    rw [if_pos (show trimSpace "" = "" from rfl), if_neg hne]
    rfl
  · intro c l1 l2 hc
    exact sseFramesAux_comment c hc l1 l2 []
  · intro ps rest st now hca hok
    rcases hrun : runPayloads openAIOnData ps st with ⟨st1, e1⟩
    have he1 : e1 = none := by rw [hrun] at hok; exact hok
    subst he1
    have hca1 : st1.cancelAfter = none := by
      have h2 := runPayloads_openAI_cancelAfter ps st
      rw [hrun] at h2
      rw [show ((st1, (none : Option ConsumeErr))).1.cancelAfter = st1.cancelAfter from rfl] at h2
      rw [h2, hca]
    have hdone : openAIOnData st1 "[DONE]" =
        ({ st1 with calls := st1.calls + 1 }, some .sseDone) := by
      unfold openAIOnData
      dsimp only
      rw [hca1]
      simp
    refine ⟨{ st1 with calls := st1.calls + 1 }, ?_, by simp [openAIFinish], rfl,
      openAIFinishOk_no_error_events _ now⟩
    rw [runPayloads_append, hrun]
    simp only [runPayloads]
    rw [hdone]

/-- Witness for C8 at concrete inputs. -/
theorem sse_framing_witness :
    sseFrames ((["a", "b"].map (fun d => "data: " ++ d)) ++ [""] ++ []) =
      strJoinSep "\n" ["a", "b"] :: sseFrames [] ∧
    sseFrames (["data: x"] ++ ": keep-alive" :: [""]) = sseFrames (["data: x"] ++ [""]) ∧
    (∃ st2,
      runPayloads openAIOnData ([] ++ "[DONE]" :: [])
          ({ agg := newOpenAIAggregation { id := "m" } } : OpenAIConsumeState) =
        (st2, some .sseDone) ∧
      openAIFinish st2 (some .sseDone) 7 = openAIFinishOk st2 7 ∧
      (openAIFinishOk st2 7).2 =
        .ok (buildAssistant st2.agg (finalizeToolCalls st2.agg) 7) ∧
      (openAIFinishOk st2 7).1.countP (fun e => e.type == .error) =
        st2.events.countP (fun e => e.type == .error)) :=
  ⟨sse_framing.2.1 ["a", "b"] [] (by decide) (by decide),
    sse_framing.2.2.1 ": keep-alive" ["data: x"] [""] (by decide),
    sse_framing.2.2.2 [] [] { agg := newOpenAIAggregation { id := "m" } } 7 rfl rfl⟩

/-! ## C10 — request shaping omits payload-free messages -/

/-- Specification-side predicate: a content part carrying non-blank
text (typed, or a map tagged as text). -/
def partNonBlankText : RawPart → Bool
  | .text v => trimSpace v.text != ""
  | .map v =>
    (getStringField v "type" == contentTextTag) &&
      (trimSpace (getStringField v "text") != "")
  | _ => false

/-- Specification-side predicate: an image part with non-blank data. -/
def partImagePayload : RawPart → Bool
  | .image v => trimSpace v.data != ""
  | .map v =>
    (getStringField v "type" == contentImageTag) &&
      (trimSpace (getStringField v "data") != "")
  | _ => false

/-- Specification-side predicate: a tool-call part (typed, or a map
tagged as a tool call). -/
def partIsToolCall : RawPart → Bool
  | .toolCall _ => true
  | .map v => getStringField v "type" == contentToolCallTag
  | _ => false

/-- `appendSome out c?` appends the payload of `c?`, if any. -/
def appendSome {β : Type} (out : List β) (c? : Option β) : List β :=
  match c? with
  | some c => out ++ [c]
  | none => out

/-- Append-style folds are `filterMap`s. -/
lemma foldl_appendSome_of {α β : Type} (g : List β → α → List β) (f : α → Option β)
    (hg : ∀ out x, g out x = appendSome out (f x)) :
    ∀ (l : List α) (acc : List β), l.foldl g acc = acc ++ l.filterMap f := by
  intro l
  induction l with
  | nil => intro acc; simp
  | cons x xs ih =>
    intro acc
    simp only [List.foldl_cons, List.filterMap_cons, hg acc x]
    rcases hf : f x with _ | c
    · simp [appendSome, hf, ih]
    · simp [appendSome, hf, ih]

/-- The text part selected by the `extractText` loop, when any. -/
def nonBlankTextOf : RawPart → Option String
  | .text v => if trimSpace v.text ≠ "" then some v.text else none
  | .map v =>
    if getStringField v "type" = contentTextTag then
      if trimSpace (getStringField v "text") ≠ "" then some (getStringField v "text")
      else none
    else none
  | _ => none

/-- `extractTextStep` appends exactly the selected text part. -/
lemma extractTextStep_eq (acc : List String) (item : RawPart) :
    extractTextStep acc item = appendSome acc (nonBlankTextOf item) := by
  cases item with
  | text v =>
    by_cases hc : trimSpace v.text ≠ ""
    · simp [extractTextStep, nonBlankTextOf, appendSome, hc]
    · simp [extractTextStep, nonBlankTextOf, appendSome, hc]
  | map v =>
    by_cases hc : getStringField v "type" = contentTextTag
    · by_cases hc2 : trimSpace (getStringField v "text") ≠ ""
      · simp [extractTextStep, nonBlankTextOf, appendSome, hc, hc2]
      · simp [extractTextStep, nonBlankTextOf, appendSome, hc, hc2]
    · simp [extractTextStep, nonBlankTextOf, appendSome, hc]
  | image v => rfl
  | toolCall v => rfl
  | thinking v => rfl
  | other => rfl

/-- `extractText` is the newline join of the selected text parts. -/
lemma extractText_eq (content : List RawPart) :
    extractText content = strJoinSep "\n" (content.filterMap nonBlankTextOf) := by
  unfold extractText
  rw [foldl_appendSome_of extractTextStep nonBlankTextOf extractTextStep_eq content []]
  rfl

/-- A selected text part is never the empty string. -/
lemma nonBlankTextOf_ne_empty {p : RawPart} {t : String}
    (h : nonBlankTextOf p = some t) : t ≠ "" := by
  intro ht
  subst ht
  cases p <;> simp only [nonBlankTextOf] at h <;> try exact Option.noConfusion h
  · split at h
    · rename_i hcond
      rw [Option.some.inj h] at hcond
      exact hcond rfl
    · exact Option.noConfusion h
  · split at h
    · split at h
      · rename_i hcond
        rw [Option.some.inj h] at hcond
        exact hcond rfl
      · exact Option.noConfusion h
    · exact Option.noConfusion h

/-- The selection succeeds exactly on non-blank text parts. -/
lemma nonBlankTextOf_isSome (p : RawPart) :
    (nonBlankTextOf p).isSome = partNonBlankText p := by
  cases p <;> simp only [nonBlankTextOf, partNonBlankText] <;> try rfl
  · split <;> rename_i hcond
    · simp [hcond]
    · simp [not_not.mp hcond]
  · split
    · rename_i hcond
      split
      · rename_i hcond2
        simp [hcond, hcond2]
      · rename_i hcond2
        simp [hcond, not_not.mp hcond2]
    · rename_i hcond
      simp [hcond]

/-- The join of a list headed by a non-empty string is non-empty. -/
lemma strJoinSep_cons_ne_empty (x : String) (xs : List String) (hx : x ≠ "") :
    strJoinSep "\n" (x :: xs) ≠ "" := by
  have hlen : ∀ (l : List String) (acc : String),
      acc.length ≤ (l.foldl (fun acc a => acc ++ "\n" ++ a) acc).length := by
    intro l
    induction l with
    | nil => intro acc; exact Nat.le_refl _
    | cons a as ih =>
      intro acc
      refine Nat.le_trans ?_ (ih (acc ++ "\n" ++ a))
      rw [String.length_append, String.length_append]
      omega
  have hxlen : 0 < x.length := by
    cases hx2 : x.length with
    | zero =>
      exfalso
      apply hx
      cases x with
      | mk l =>
        cases l with
        | nil => rfl
        | cons c cs =>
          have hc1 : (String.mk (c :: cs)).length = cs.length + 1 := rfl
          omega
    | succ n => omega
  intro hempty
  have h1 := hlen xs x
  rw [show strJoinSep "\n" (x :: xs) = xs.foldl (fun acc a => acc ++ "\n" ++ a) x from rfl]
    at hempty
  rw [hempty] at h1
  have h0 : ("" : String).length = 0 := rfl
  omega

/-- `extractText` is empty exactly when no part carries non-blank
text. -/
lemma extractText_eq_empty_iff (content : List RawPart) :
    (extractText content = "") ↔ ∀ p ∈ content, partNonBlankText p = false := by
  rw [extractText_eq]
  cases hfm : content.filterMap nonBlankTextOf with
  | nil =>
    have hnil : strJoinSep "\n" ([] : List String) = "" := rfl
    rw [hnil]
    constructor
    · intro _ p hp
      rw [← nonBlankTextOf_isSome]
      rw [List.filterMap_eq_nil_iff.mp hfm p hp]
      rfl
    · intro _
      rfl
  | cons t ts =>
    constructor
    · intro hempty
      exfalso
      have hmem : t ∈ content.filterMap nonBlankTextOf := by
        rw [hfm]; exact List.mem_cons_self t ts
      obtain ⟨p, _, hp⟩ := List.mem_filterMap.mp hmem
      exact strJoinSep_cons_ne_empty t ts (nonBlankTextOf_ne_empty hp) hempty
    · intro hall
      exfalso
      have hmem : t ∈ content.filterMap nonBlankTextOf := by
        rw [hfm]; exact List.mem_cons_self t ts
      obtain ⟨p, hpmem, hp⟩ := List.mem_filterMap.mp hmem
      have hfalse := hall p hpmem
      rw [← nonBlankTextOf_isSome, hp] at hfalse
      exact Bool.noConfusion hfalse

/-- Tool-call extraction succeeds exactly on tool-call parts, at any
index. -/
lemma extractToolCallsOne_isSome (i : Nat) (p : RawPart) :
    (extractToolCallsOne i p).isSome = partIsToolCall p := by
  cases p <;> simp only [extractToolCallsOne, partIsToolCall] <;> try rfl
  · split
    · rename_i hcond
      simp [hcond]
    · rename_i hcond
      simp [hcond]

/-- Tool-call extraction over an enumerated suffix is empty exactly
when no part is a tool call. -/
lemma enumFrom_filterMap_toolCalls_nil_iff :
    ∀ (l : List RawPart) (n : Nat),
      ((List.enumFrom n l).filterMap (fun p => extractToolCallsOne p.1 p.2) = []) ↔
        ∀ p ∈ l, partIsToolCall p = false := by
  intro l
  induction l with
  | nil => intro n; simp
  | cons x xs ih =>
    intro n
    rcases hx : extractToolCallsOne n x with _ | c
    · have hpx : partIsToolCall x = false := by
        rw [← extractToolCallsOne_isSome n x, hx]
        rfl
      simp [List.enumFrom_cons, List.filterMap_cons, hx, List.forall_mem_cons,
        hpx, ih (n + 1)]
    · have hpx : partIsToolCall x = true := by
        rw [← extractToolCallsOne_isSome n x, hx]
        rfl
      simp [List.enumFrom_cons, List.filterMap_cons, hx, List.forall_mem_cons, hpx]

/-- `extractToolCallsStep` appends exactly the extracted call. -/
lemma extractToolCallsStep_eq (out : List OpenAIChatToolCall) (p : Nat × RawPart) :
    extractToolCallsStep out p = appendSome out (extractToolCallsOne p.1 p.2) := by
  rcases h : extractToolCallsOne p.1 p.2 with _ | c <;>
    simp [extractToolCallsStep, appendSome, h]

/-- `extractToolCalls` is empty exactly when no part is a tool call. -/
lemma extractToolCalls_eq_nil_iff (content : List RawPart) :
    (extractToolCalls content = []) ↔ ∀ p ∈ content, partIsToolCall p = false := by
  unfold extractToolCalls
  rw [foldl_appendSome_of extractToolCallsStep
        (fun p => extractToolCallsOne p.1 p.2) extractToolCallsStep_eq
        content.enum []]
  rw [List.nil_append]
  exact enumFrom_filterMap_toolCalls_nil_iff content 0

/-- Specification-side predicate: a part contributing user payload
(non-blank text, or an image with non-blank data). -/
def partUserPayload (p : RawPart) : Bool :=
  partNonBlankText p || partImagePayload p

/-- The `text` and `image` map tags differ. -/
lemma textTag_ne_imageTag : (contentTextTag == contentImageTag) = false := by
  decide

/-- The `image` and `text` map tags differ. -/
lemma imageTag_ne_textTag : contentImageTag ≠ contentTextTag := by
  decide

/-- A user-payload flag is false exactly when both component flags
are. -/
lemma partUserPayload_eq_false_iff (p : RawPart) :
    partUserPayload p = false ↔
      partNonBlankText p = false ∧ partImagePayload p = false := by
  simp [partUserPayload]

/-- One user-content iteration leaves `parts` empty exactly when it
was empty and the item carries no payload. -/
lemma userContentStep_parts_nil (acc : UserContentAcc) (x : RawPart) :
    ((userContentStep acc x).parts = []) ↔
      (acc.parts = [] ∧ partUserPayload x = false) := by
  cases x with
  | text v =>
    by_cases hc : trimSpace v.text ≠ ""
    · simp [userContentStep, partUserPayload, partNonBlankText, partImagePayload, hc]
    · simp [userContentStep, partUserPayload, partNonBlankText, partImagePayload,
        not_not.mp hc]
  | image v =>
    by_cases hc : trimSpace v.data ≠ ""
    · simp [userContentStep, partUserPayload, partNonBlankText, partImagePayload, hc]
    · simp [userContentStep, partUserPayload, partNonBlankText, partImagePayload,
        not_not.mp hc]
  | map v =>
    by_cases hc : getStringField v "type" = contentTextTag
    · by_cases hc2 : trimSpace (getStringField v "text") ≠ ""
      · simp [userContentStep, partUserPayload, partNonBlankText, partImagePayload,
          hc, hc2, textTag_ne_imageTag]
      · simp [userContentStep, partUserPayload, partNonBlankText, partImagePayload,
          hc, not_not.mp hc2, textTag_ne_imageTag]
    · by_cases hc3 : getStringField v "type" = contentImageTag
      · by_cases hc4 : trimSpace (getStringField v "data") ≠ ""
        · simp [userContentStep, partUserPayload, partNonBlankText, partImagePayload,
            hc, hc3, hc4, imageTag_ne_textTag]
        · simp [userContentStep, partUserPayload, partNonBlankText, partImagePayload,
            hc, hc3, not_not.mp hc4, imageTag_ne_textTag]
      · simp [userContentStep, partUserPayload, partNonBlankText, partImagePayload,
          hc, hc3]
  | toolCall v =>
    simp [userContentStep, partUserPayload, partNonBlankText, partImagePayload]
  | thinking v =>
    simp [userContentStep, partUserPayload, partNonBlankText, partImagePayload]
  | other =>
    simp [userContentStep, partUserPayload, partNonBlankText, partImagePayload]

/-- The user-content fold keeps `parts` empty exactly when it started
empty and no item carries payload. -/
lemma foldl_userContent_parts_nil :
    ∀ (l : List RawPart) (acc : UserContentAcc),
      ((l.foldl userContentStep acc).parts = []) ↔
        (acc.parts = [] ∧ ∀ p ∈ l, partUserPayload p = false) := by
  intro l
  induction l with
  | nil => intro acc; simp
  | cons x xs ih =>
    intro acc
    rw [List.foldl_cons, ih (userContentStep acc x), userContentStep_parts_nil]
    simp only [List.forall_mem_cons]
    tauto

/-- `extractOpenAIUserContent` returns Go `nil` exactly when no part
carries user payload. -/
lemma extractOpenAIUserContent_eq_none_iff (content : List RawPart) :
    (extractOpenAIUserContent content = none) ↔
      ∀ p ∈ content, partUserPayload p = false := by
  have hres : (extractOpenAIUserContent content = none) ↔
      (content.foldl userContentStep {}).parts = [] := by
    unfold extractOpenAIUserContent
    dsimp only
    constructor
    · intro h
      by_contra hp
      rw [if_neg hp] at h
      split at h <;> exact Option.noConfusion h
    · intro hp
      rw [if_pos hp]
  rw [hres, foldl_userContent_parts_nil]
  simp

/-- A user message maps to no outgoing entry exactly when no content
part carries user payload. -/
lemma toOpenAIMessageOne_user_none_iff (msg : Message) (hrole : msg.role = roleUser) :
    (toOpenAIMessageOne msg = none) ↔
      ∀ p ∈ msg.contentRaw, partUserPayload p = false := by
  rw [← extractOpenAIUserContent_eq_none_iff]
  unfold toOpenAIMessageOne
  rw [if_pos hrole]
  rcases h : extractOpenAIUserContent msg.contentRaw with _ | c
  · simp
  · rcases c with s | ps <;> simp

/-- An assistant message maps to no outgoing entry exactly when no
content part carries non-blank text and none is a tool call. -/
lemma toOpenAIMessageOne_assistant_none_iff (msg : Message)
    (hrole : msg.role = roleAssistant) :
    (toOpenAIMessageOne msg = none) ↔
      ∀ p ∈ msg.contentRaw,
        partNonBlankText p = false ∧ partIsToolCall p = false := by
  unfold toOpenAIMessageOne
  rw [if_neg (by rw [hrole]; decide), if_pos hrole]
  dsimp only
  by_cases hcond : extractText msg.contentRaw = "" ∧ extractToolCalls msg.contentRaw = []
  · rw [if_pos hcond]
    constructor
    · intro _ p hp
      exact ⟨(extractText_eq_empty_iff _).mp hcond.1 p hp,
             (extractToolCalls_eq_nil_iff _).mp hcond.2 p hp⟩
    · intro _
      rfl
  · rw [if_neg hcond]
    constructor
    · intro hcontra
      exact Option.noConfusion hcontra
    · intro hall
      exact absurd
        ⟨(extractText_eq_empty_iff _).mpr (fun p hp => (hall p hp).1),
         (extractToolCalls_eq_nil_iff _).mpr (fun p hp => (hall p hp).2)⟩ hcond

/-- `toOpenAIMessagesStep` appends exactly the mapped entry. -/
lemma toOpenAIMessagesStep_eq (out : List OpenAIChatMessage) (msg : Message) :
    toOpenAIMessagesStep out msg = appendSome out (toOpenAIMessageOne msg) := by
  rcases h : toOpenAIMessageOne msg with _ | e <;>
    simp [toOpenAIMessagesStep, appendSome, h]

/-- `toOpenAIMessages` is the optional system entry followed by the
per-message entries. -/
lemma toOpenAIMessages_eq (conversation : Context) :
    toOpenAIMessages conversation =
      (if trimSpace conversation.systemPrompt ≠ "" then
        [{ role := "system", content := .plain conversation.systemPrompt }]
      else []) ++ conversation.messages.filterMap toOpenAIMessageOne := by
  unfold toOpenAIMessages
  dsimp only
  rw [foldl_appendSome_of toOpenAIMessagesStep toOpenAIMessageOne
        toOpenAIMessagesStep_eq conversation.messages]

/-- C10: shaping a chat-completions request keeps the optional system
entry followed by exactly one outgoing entry per non-omitted session
message; a user message is omitted exactly when its content has no
non-blank text part and no image part with non-blank data, and an
assistant message is omitted exactly when its content has no
non-blank text part and no tool-call part. -/
theorem request_shaping_omits_blank_messages (conversation : Context) (msg : Message) :
    (toOpenAIMessages conversation =
      (if trimSpace conversation.systemPrompt ≠ "" then
        [{ role := "system", content := .plain conversation.systemPrompt }]
      else []) ++ conversation.messages.filterMap toOpenAIMessageOne) ∧
    (msg.role = roleUser →
      ((toOpenAIMessageOne msg = none) ↔
        ∀ p ∈ msg.contentRaw,
          partNonBlankText p = false ∧ partImagePayload p = false)) ∧
    (msg.role = roleAssistant →
      ((toOpenAIMessageOne msg = none) ↔
        ∀ p ∈ msg.contentRaw,
          partNonBlankText p = false ∧ partIsToolCall p = false)) := by
  refine ⟨toOpenAIMessages_eq conversation, ?_, ?_⟩
  · intro hrole
    rw [toOpenAIMessageOne_user_none_iff msg hrole]
    constructor
    · intro h p hp
      exact (partUserPayload_eq_false_iff p).mp (h p hp)
    · intro h p hp
      exact (partUserPayload_eq_false_iff p).mpr (h p hp)
  · intro hrole
    exact toOpenAIMessageOne_assistant_none_iff msg hrole

/-- C10 witness: a concrete conversation whose blank user message and
text-free, call-free assistant message are omitted while the others
each yield one entry. -/
theorem request_shaping_omits_blank_messages_witness :
    toOpenAIMessages
        { systemPrompt := "sys"
          messages :=
            [ { role := "user", contentRaw := [.text { text := "   " }] }
            , { role := "user", contentRaw := [.text { text := "hi" }] }
            , { role := "assistant", contentRaw := [.text { text := " " }] }
            , { role := "assistant", contentRaw := [.text { text := "ok" }] } ] } =
      [ { role := "system", content := .plain "sys" }
      , { role := "user", content := .plain "hi" }
      , { role := "assistant", content := .plain "ok" } ] ∧
    toOpenAIMessageOne { role := "user", contentRaw := [.text { text := "   " }] } = none ∧
    toOpenAIMessageOne { role := "assistant", contentRaw := [.text { text := " " }] } = none := by
  refine ⟨?_, ?_, ?_⟩
  · rw [(request_shaping_omits_blank_messages
        { systemPrompt := "sys"
          messages :=
            [ { role := "user", contentRaw := [.text { text := "   " }] }
            , { role := "user", contentRaw := [.text { text := "hi" }] }
            , { role := "assistant", contentRaw := [.text { text := " " }] }
            , { role := "assistant", contentRaw := [.text { text := "ok" }] } ] }
        { role := "user" }).1]
    rfl
  · exact ((request_shaping_omits_blank_messages {}
        { role := "user", contentRaw := [.text { text := "   " }] }).2.1 rfl).mpr
      (by decide)
  · exact ((request_shaping_omits_blank_messages {}
        { role := "assistant", contentRaw := [.text { text := " " }] }).2.2 rfl).mpr
      (by decide)

end Provider

end Phi
